import Mathlib

/-!
Verification of the S0PCM2MQTT telemetry pipeline.

Shallow embedding of the core of the repository:
 * S0_parser.py   — class ParseTelegrams: telegram decoding, delta/reset policy,
                    running totals, persistence with write throttling, JSON emission
 * S0_serial.py   — class TaskReadSerial: line validation, EOF handling, handoff
 * mqtt.py        — class mqttclient.run: connectivity backoff loop
 * config.rename.py — the configuration surface

General modelling conventions:
 * Python ints are modelled as Lean Int (raw telegram values, parsed by int() on
   digit strings, are non-negative but are carried as Int since Python ints are
   signed arbitrary precision).
 * Python dicts are modelled as association lists with dict semantics: update in
   place when the key is present, append at the end otherwise; a lookup of a
   missing key (a KeyError) is modelled by a none result that aborts the cycle.
 * Fallible code paths (uncaught IndexError / KeyError / ValueError) are modelled
   by Option: a none result of a decode cycle means the Python thread would have
   raised.
 * Logging is not modelled except for the power-down warnings of S0_parser.py
   line 214, which are recorded in the cycle result so that warning behaviour is
   provable.
-/

namespace S0PCM

/-! ### Basic string utilities (kernel-reducible replacements for library calls) -/

/-- The decimal digit character for n (callers always pass n % 10). -/
def digitChar : Nat → Char
  | 0 => '0'
  | 1 => '1'
  | 2 => '2'
  | 3 => '3'
  | 4 => '4'
  | 5 => '5'
  | 6 => '6'
  | 7 => '7'
  | 8 => '8'
  | _ => '9'

/-- Digits of a natural number, most significant first; fuel-based structural
recursion so that the kernel can evaluate it (mirrors Python str(int) for
non-negative input). -/
def natToStringAux : Nat → Nat → List Char → List Char
  | 0, _, acc => acc
  | fuel+1, n, acc =>
    let d := digitChar (n % 10)
    if n < 10 then d :: acc else natToStringAux fuel (n / 10) (d :: acc)

/-- Python str(n) for a natural number. -/
def natToString (n : Nat) : String := ⟨natToStringAux (n+1) n []⟩

/-- Python str(n) / json.dumps rendering of an arbitrary int. -/
def intToString : Int → String
  | Int.ofNat n => natToString n
  | Int.negSucc m => ⟨'-' :: (natToString (m+1)).data⟩

/-- Helper for splitColonStr: accumulate the current field (reversed) while
scanning the character list. -/
def splitColonAux : List Char → List Char → List (List Char)
  | acc, [] => [acc.reverse]
  | acc, c :: rest => if c = ':' then acc.reverse :: splitColonAux [] rest else splitColonAux (c :: acc) rest

/-- Python str.split(new line: ':'): splits on every colon, keeping empty fields;
always returns at least one element. -/
def splitColonStr (s : String) : List String :=
  (splitColonAux [] s.data).map (fun l => ⟨l⟩)

/-- Value of a list of decimal digit characters (most significant first). -/
def digitsToNat : List Char → Nat → Nat
  | [], acc => acc
  | c :: r, acc => digitsToNat r (acc * 10 + (c.toNat - 48))

/-- Python int(s) on the inputs reachable in this program: a non-empty run of
ASCII decimal digits parses to its value; anything else raises ValueError,
modelled as none.  (Full Python int() also accepts signs, surrounding
whitespace and underscores; those shapes cannot reach the parser because the
reader's structural pattern only passes digit runs, so they are outside the
model.) -/
def parseInt? (s : String) : Option Int :=
  if s.data ≠ [] ∧ s.data.all Char.isDigit then some (Int.ofNat (digitsToNat s.data 0)) else none

/-! ### JSON model (json.dumps with sort_keys=True, separators=(',', ':')) -/

/-- A JSON value occurring in this program's payloads: an int or a string. -/
inductive JVal where
  | num : Int → JVal
  | str : String → JVal
  deriving DecidableEq, Repr

/-- A Python dict with string keys in insertion order.  All dicts built by the
program have pairwise distinct keys (dict semantics are enforced by jset). -/
abbrev JDict := List (String × JVal)

/-- Python dict setitem: update in place if the key is present, else append. -/
def jset (k : String) (v : JVal) : JDict → JDict
  | [] => [(k, v)]
  | p :: rest => if p.1 = k then (k, v) :: rest else p :: jset k v rest

/-- Python dict getitem (as an Option; none models KeyError). -/
def jlookup (k : String) : JDict → Option JVal
  | [] => none
  | p :: rest => if p.1 = k then some p.2 else jlookup k rest

/-- Removal part of Python dict.pop: removes the (unique) binding of k. -/
def jremove (k : String) : JDict → JDict
  | [] => []
  | p :: rest => if p.1 = k then rest else p :: jremove k rest

/-- Python dict.pop(k): returns the value and the dict without k; none models
the KeyError raised when k is absent. -/
def jpop (k : String) (d : JDict) : Option (JVal × JDict) :=
  match jlookup k d with
  | none => none
  | some v => some (v, jremove k d)

/-- Keys of a dict, in insertion order. -/
def jkeys (d : JDict) : List String := d.map Prod.fst

/-- Lexicographic comparison of strings by code point, as Python uses for
sort_keys=True (ASCII inputs; on those Python's code-point order coincides
with this Char.toNat order). -/
def keyLe : List Char → List Char → Bool
  | [], _ => true
  | _ :: _, [] => false
  | a :: as, b :: bs =>
    if a.toNat < b.toNat then true
    else if b.toNat < a.toNat then false
    else keyLe as bs

/-- Key order on dict entries, as used by json.dumps(..., sort_keys=True). -/
def keyRel (p q : String × JVal) : Prop := keyLe p.1.data q.1.data = true

instance : DecidableRel keyRel := fun p q => instDecidableEqBool (keyLe p.1.data q.1.data) true

/-- Sort a dict by key (insertion sort; with pairwise distinct keys the
sorted result is unique, so the choice of sorting algorithm is immaterial to
modelling json.dumps's sort_keys=True). -/
def sortByKey (d : JDict) : JDict := List.insertionSort keyRel d

/-- Rendering of a JSON value: ints in decimal, strings quoted.  json.dumps
escaping of special characters inside strings is omitted: every string value
in this program is a digit run or a configured word, so the escaping branch is
unreachable. -/
def renderJVal : JVal → String
  | JVal.num n => intToString n
  | JVal.str s => "\"" ++ s ++ "\""

/-- Join rendered entries with the ',' item separator of separators=(',',':'). -/
def joinComma : List String → String
  | [] => ""
  | [s] => s
  | s :: rest => s ++ "," ++ joinComma rest

/-- json.dumps(d, sort_keys=True, separators=(',', ':')): key-sorted, compact
(no whitespace is ever emitted: the only separators are ',' and ':'). -/
def jsonDumps (d : JDict) : String :=
  "\x7b" ++ joinComma ((sortByKey d).map (fun p => "\"" ++ p.1 ++ "\":" ++ renderJVal p.2)) ++ "\x7d"

/-- Python str.replace('//', '/') for the topic (S0_parser.py line 119):
left-to-right non-overlapping replacement. -/
def replaceDoubleSlashAux : List Char → List Char
  | '/' :: '/' :: rest => '/' :: replaceDoubleSlashAux rest
  | c :: rest => c :: replaceDoubleSlashAux rest
  | [] => []

/-- Topic cleanup of __publish_telegram. -/
def replaceDoubleSlash (s : String) : String := ⟨replaceDoubleSlashAux s.data⟩

/-! ### Configuration surface (config.rename.py) -/

/-- S0_DEFINITION from config.rename.py: the friendly-name mapping for the five
channels; None means the channel is excluded from published messages. -/
structure S0Definition where
  m1 : Option String
  m2 : Option String
  m3 : Option String
  m4 : Option String
  m5 : Option String
  deriving DecidableEq, Repr

/-- Lookup of S0_DEFINITION["M" + str(i)] for i in 1..5. -/
def S0Definition.get (d : S0Definition) : Nat → Option String
  | 1 => d.m1
  | 2 => d.m2
  | 3 => d.m3
  | 4 => d.m4
  | 5 => d.m5
  | _ => none

/-- The whole configuration surface of config.rename.py.  Note there is no
field controlling the persistence write throttle: the threshold is the literal
10 in S0_parser.py line 96.  (MQTT_TOPIC_PREFIX is named mqtt_topic_pfx
here.) -/
structure Config where
  loglevel : String
  production : Bool
  simulatorfile : String
  measurementfile : String
  s0_definition : S0Definition
  mqtt_broker : String
  mqtt_port : Nat
  mqtt_client_uniq : String
  mqtt_qos : Nat
  mqtt_username : String
  mqtt_password : String
  mqtt_rate : Nat
  mqtt_topic_pfx : String
  ser_port : String
  ser_baudrate : Nat
  influxdb : Option String
  ha_discovery : Bool
  ha_discovery_topic_pfx : String
  ha_deleteconfig : Bool
  ha_interval : Nat
  deriving DecidableEq, Repr

/-- The configuration values shipped in config.rename.py (PRODUCTION = True,
so MQTT_TOPIC_PREFIX = "s0pcm"). -/
def cfg0 : Config where
  loglevel := "INFO"
  production := true
  simulatorfile := "test/s0pcm.raw"
  measurementfile := "measurement.yaml"
  s0_definition := ⟨some "jacuzzi", none, some "water", none, none⟩
  mqtt_broker := "192.168.1.1"
  mqtt_port := 1883
  mqtt_client_uniq := "mqtt-s0pcm"
  mqtt_qos := 1
  mqtt_username := "username"
  mqtt_password := "password"
  mqtt_rate := 100
  mqtt_topic_pfx := "s0pcm"
  ser_port := "/dev/ttyACM0"
  ser_baudrate := 9600
  influxdb := some "s0pcm"
  ha_discovery := true
  ha_discovery_topic_pfx := "s0pcm"
  ha_deleteconfig := false
  ha_interval := 12

/-! ### ParseTelegrams state (S0_parser.py) -/

/-- In-memory state of the ParseTelegrams thread.  The Python attribute
self.__measurements is one dict with int keys 1..5 (each mapping to
\x7b'total': int\x7d) and the string key 'date'; since the key types are
disjoint it is modelled as the Nat-keyed association list `measurements`
(channel -> total) plus the `date` field. -/
structure ParserState where
  all_values : List Int
  prev_all_values : List Int
  measurements : List (Nat × Int)
  date : Int
  write_counter : Nat
  deriving DecidableEq, Repr

/-- The initial values set in ParseTelegrams.__init__ (S0_parser.py lines
53-61): empty vectors, all-zero totals, date 0, write counter 0. -/
def initialParserState : ParserState :=
  ⟨[], [], [(1, 0), (2, 0), (3, 0), (4, 0), (5, 0)], 0, 0⟩

/-- Lookup in the measurements dict (Python getitem; none models the KeyError
a missing channel key raises). -/
def mlookup (k : Nat) : List (Nat × Int) → Option Int
  | [] => none
  | p :: r => if p.1 = k then some p.2 else mlookup k r

/-- Setitem in the measurements dict. -/
def mset (k : Nat) (v : Int) : List (Nat × Int) → List (Nat × Int)
  | [] => [(k, v)]
  | p :: r => if p.1 = k then (k, v) :: r else p :: mset k v r

/-- __read_measurements (S0_parser.py lines 70-85): on any exception while
opening or parsing the YAML file (absent or unreadable file) it logs a warning
and returns, keeping the current in-memory state — i.e. the zero defaults from
__init__; on success the loaded document replaces the measurements wholesale.
A successfully loaded document is modelled as its channel entries plus date
(a manually edited file may be missing any subset of the channel keys). -/
def read_measurements (st : ParserState) (fileContent : Option (List (Nat × Int) × Int)) : ParserState :=
  match fileContent with
  | none => st
  | some (tot, d) => { st with measurements := tot, date := d }

/-- __write_measurements (S0_parser.py lines 87-107).  Returns the new write
counter, whether a physical write to disk is performed, and the destination
path.  With throttle=True the counter is incremented and the write is skipped
while the counter stays below the literal 10 (line 96); reaching 10 resets the
counter and writes.  With throttle=False (the teardown call in run, line 271)
it always writes.  Nothing in the configuration influences the threshold; the
configuration only supplies the destination file name. -/
def write_measurements (cfg : Config) (throttle : Bool) (write_counter : Nat) : Nat × Bool × String :=
  if throttle then
    let wc := write_counter + 1
    if wc < 10 then (wc, false, cfg.measurementfile)
    else (0, true, cfg.measurementfile)
  else (write_counter, true, cfg.measurementfile)

/-- Channel-triple processing loop of __decode_telegram_element (S0_parser.py
lines 144-156): five times, take the channel label, skip the interval-delta
field, parse the pulse total, store label -> total.  A missing element is an
IndexError, a non-numeric total a ValueError; both abort (none). -/
def decodeChannels : Nat → List String → JDict → Option JDict
  | 0, _, j => some j
  | n+1, channel :: _delta :: pulse :: rest, j =>
    match parseInt? pulse with
    | none => none
    | some p => decodeChannels n rest (jset channel (JVal.num p) j)
  | _+1, _, _ => none

/-- __decode_telegram_element (S0_parser.py lines 123-156): split the element
on ':', drop the ID tag, record the serial (str of a str is itself), drop the
"I"/interval pair, then decode the five channel triples.  Fewer than four
leading fields is an IndexError (none). -/
def decode_telegram_element (element : String) (jsonvalues : JDict) : Option JDict :=
  match splitColonStr element with
  | _idtag :: serial :: _itag :: _interval :: s0rest =>
    decodeChannels 5 s0rest (jset "serial" (JVal.str serial) jsonvalues)
  | _ => none

/-- Lines 195-197 of S0_parser.py: read json_values["M1"].."M5" back as the
current raw vector.  A missing key is a KeyError (none); the values are ints
by construction (decodeChannels only stores JVal.num). -/
def mvalues (j : JDict) : Option (List Int) :=
  match jlookup "M1" j, jlookup "M2" j, jlookup "M3" j, jlookup "M4" j, jlookup "M5" j with
  | some (JVal.num a), some (JVal.num b), some (JVal.num c), some (JVal.num d), some (JVal.num e) =>
    some [a, b, c, d, e]
  | _, _, _, _, _ => none

/-- The per-channel loop of lines 207-226 of S0_parser.py, processing channels
i, i+1, ... over the tails of the current and previous vectors:
 * normal operation (cur >= prev): delta = cur - prev, stored previous entry
   kept;
 * power-down (cur < prev): warning for channel i recorded, delta = 0, stored
   previous entry for i set to the lower cur (line 219);
 * the running total update `measurements[i]["total"] += delta` (line 223)
   raises KeyError when the dict is missing key i; the `except IndexError` on
   line 224 does not catch a KeyError, so the cycle aborts (none).  (The
   handler itself is unreachable for a dict-valued measurements store.)
 * exhausting either list before the loop ends is an IndexError (none).
Returns the mutated previous-vector tail, the updated totals and the warned
channels. -/
def updateChannels : Nat → Nat → List Int → List Int → List (Nat × Int) →
    Option (List Int × List (Nat × Int) × List Nat)
  | 0, _, _, prevs, tot => some (prevs, tot, [])
  | n+1, i, cur :: curs, pv :: prevs, tot =>
    let delta : Int := if pv ≤ cur then cur - pv else 0
    let pv' : Int := if pv ≤ cur then pv else cur
    match mlookup i tot with
    | none => none
    | some t =>
      match updateChannels n (i+1) curs prevs (mset i (t + delta) tot) with
      | none => none
      | some (ps, tot', ws) => some (pv' :: ps, tot', if cur < pv then i :: ws else ws)
  | _+1, _, _, _, _ => none

/-- Lines 228-229 of S0_parser.py: write the five updated running totals into
json_values under the "M1".."M5" keys (a missing channel key would be a
KeyError; unreachable after a successful updateChannels). -/
def writeTotals (tot : List (Nat × Int)) (j : JDict) : Option JDict :=
  match mlookup 1 tot, mlookup 2 tot, mlookup 3 tot, mlookup 4 tot, mlookup 5 tot with
  | some t1, some t2, some t3, some t4, some t5 =>
    some (jset "M5" (JVal.num t5) (jset "M4" (JVal.num t4) (jset "M3" (JVal.num t3)
      (jset "M2" (JVal.num t2) (jset "M1" (JVal.num t1) j)))))
  | _, _, _, _, _ => none

/-- One iteration of the renaming loop (S0_parser.py lines 233-240): pop the
"Mi" key (KeyError if absent → none); if the channel has a friendly name,
re-insert the popped total under that name, otherwise drop it. -/
def applyName (name? : Option String) (mkey : String) (j : JDict) : Option JDict :=
  match jpop mkey j with
  | none => none
  | some (v, j') =>
    match name? with
    | some name => some (jset name v j')
    | none => some j'

/-- The renaming loop for i in range(1, 6), unrolled. -/
def applyNames (d : S0Definition) (j : JDict) : Option JDict :=
  match applyName d.m1 "M1" j with
  | none => none
  | some j =>
    match applyName d.m2 "M2" j with
    | none => none
    | some j =>
      match applyName d.m3 "M3" j with
      | none => none
      | some j =>
        match applyName d.m4 "M4" j with
        | none => none
        | some j => applyName d.m5 "M5" j

/-- Result of one __decode_telegrams cycle.  `published` is the (topic,
message) pair handed to __publish_telegram / do_publish, if any; `jsonOut`
records the dict that was serialised into the message (the argument of
__publish_telegram), kept as an observation for the specification; `diskWrite`
is whether the throttled __write_measurements call physically wrote;
`warnings` are the channels for which the power-down warning of line 214 was
logged. -/
structure CycleResult where
  state : ParserState
  published : Option (String × String)
  jsonOut : Option JDict
  diskWrite : Bool
  warnings : List Nat
  deriving DecidableEq, Repr

/-- __decode_telegrams (S0_parser.py lines 158-247) as a pure cycle function:
given the configuration, the epoch timestamp ts captured on line 170, the
thread state and the telegram list (counter string first, then the data
element), it either aborts (none: an uncaught IndexError/KeyError/ValueError —
the Python thread would die) or returns the new state plus the observable
effects.  Structure mirrors the source:
 * pop the counter, build json_values with timestamp/counter (+ database tag
   when INFLUXDB is configured),
 * decode the element, rebuild all_values = [0] ++ [M1..M5],
 * seed prev_all_values from all_values on the very first cycle,
 * if the vectors are equal: do nothing else (no publish, no write),
 * else run the delta loop, write totals into the dict, apply friendly names,
   publish json.dumps(...) under the cleaned topic, set date := ts, call the
   throttled write, and set prev_all_values := copy(all_values) (line 247,
   which also supersedes the per-channel line 219 update on success).
initialJson is the dict built by lines 167-181: timestamp and counter keys,
plus the database tag when INFLUXDB is configured. -/
def initialJson (cfg : Config) (ts : Int) (counter : String) : JDict :=
  let j0 : JDict := jset "counter" (JVal.str counter) (jset "timestamp" (JVal.num ts) [])
  match cfg.influxdb with
  | some db => jset "database" (JVal.str db) j0
  | none => j0

/-- See initialJson above: the decode cycle itself. -/
def decode_telegrams (cfg : Config) (ts : Int) (st : ParserState) (telegram : List String) :
    Option CycleResult :=
  match telegram with
  | [] => none
  | counter :: telegramRest =>
    match telegramRest with
    | [] => none
    | element :: _ =>
      match decode_telegram_element element (initialJson cfg ts counter) with
      | none => none
      | some j2 =>
        match mvalues j2 with
        | none => none
        | some ms =>
          let all : List Int := 0 :: ms
          let prev0 := if st.prev_all_values = [] then all else st.prev_all_values
          if all = prev0 then
            some ⟨{ st with all_values := all, prev_all_values := prev0 }, none, none, false, []⟩
          else
            match updateChannels 5 1 ms prev0.tail st.measurements with
            | none => none
            | some (_ps, tot', ws) =>
              match writeTotals tot' j2 with
              | none => none
              | some j3 =>
                match applyNames cfg.s0_definition j3 with
                | none => none
                | some j4 =>
                  let topic := replaceDoubleSlash cfg.mqtt_topic_pfx
                  let msg := jsonDumps j4
                  let wres := write_measurements cfg true st.write_counter
                  some ⟨⟨all, all, tot', ts, wres.1⟩, some (topic, msg), some j4, wres.2.1, ws⟩

/-- A sequence of decode cycles: each input is the (timestamp, telegram) pair
of one trigger of the run loop (S0_parser.py lines 255-268).  none as soon as
one cycle raises. -/
def runCycles (cfg : Config) : ParserState → List (Int × List String) → Option ParserState
  | st, [] => some st
  | st, (ts, tg) :: rest =>
    match decode_telegrams cfg ts st tg with
    | none => none
    | some r => runCycles cfg r.state rest

/-! ### TaskReadSerial (S0_serial.py) -/

/-- State of the reader thread: the telegram counter, the shared telegram
buffer, and the two shared events. -/
structure ReaderState where
  counter : Nat
  telegram : List String
  stopper : Bool
  trigger : Bool
  deriving DecidableEq, Repr

/-- Reader state at thread start (counter 0, empty buffer, no events set). -/
def initialReaderState : ReaderState := ⟨0, [], false, false⟩

/-- What one reader-loop iteration did with its line. -/
inductive ReaderAction where
  | eofShutdown
  | discarded
  | accepted
  deriving DecidableEq, Repr

/-- Python line.startswith('EOF') (S0_serial.py line 170). -/
def startsWithEOF (line : String) : Bool :=
  match line.data with
  | 'E' :: 'O' :: 'F' :: _ => true
  | _ => false

/-- Consume a literal character sequence. -/
def litChars : List Char → List Char → Option (List Char)
  | [], rest => some rest
  | c :: cs, d :: rest => if d = c then litChars cs rest else none
  | _ :: _, [] => none

/-- Consume one-or-more ASCII digits (regex \d+; Python's \d also matches
other Unicode decimal digits, which cannot occur on this ASCII serial input). -/
def digits1 : List Char → Option (List Char)
  | c :: rest => if c.isDigit then some (rest.dropWhile Char.isDigit) else none
  | [] => none

/-- Consume ":<label>:" ++ digits ++ ":" ++ digits for one channel. -/
def chanSeg (label : List Char) (r : List Char) : Option (List Char) := do
  let r ← litChars label r
  let r ← digits1 r
  let r ← litChars [':'] r
  digits1 r

/-- re.match(r"^ID:\d+:I:\d+:M1:\d+:\d+:M2:\d+:\d+:M3:\d+:\d+:M4:\d+:\d+:M5:\d+:\d+.*", line)
(S0_serial.py line 177) as a Boolean: match anchored at the start, trailing
characters after the fifth channel tolerated (the final .* always succeeds).
Since each \d+ is followed by a non-digit literal, greedy matching without
backtracking is exact. -/
def matchTelegramLine (line : String) : Bool :=
  (do
    let r ← litChars ['I', 'D', ':'] line.data
    let r ← digits1 r
    let r ← litChars [':', 'I', ':'] r
    let r ← digits1 r
    let r ← chanSeg [':', 'M', '1', ':'] r
    let r ← chanSeg [':', 'M', '2', ':'] r
    let r ← chanSeg [':', 'M', '3', ':'] r
    let r ← chanSeg [':', 'M', '4', ':'] r
    let _ ← chanSeg [':', 'M', '5', ':'] r
    some ()).isSome

/-- One iteration of __read_serial (S0_serial.py lines 153-191), applied to
one decoded, CR/LF-stripped line.  Entry requires the trigger to be clear (the
reader busy-waits on it, line 157) and the stopper unset (loop guard).  In
order, as in the source: increment the counter and append it to the telegram
buffer (lines 160-162); in simulation mode a line starting with 'EOF' sets the
stopper and breaks (lines 169-173); a line failing the structural pattern logs
a warning, clears the telegram buffer and continues (lines 175-180); otherwise
the line is appended and the trigger set to hand the telegram to the parser
(lines 182-186). -/
def read_serial_step (production : Bool) (st : ReaderState) (line : String) :
    ReaderState × ReaderAction :=
  let counter := st.counter + 1
  let tg := st.telegram ++ [natToString counter]
  if !production && startsWithEOF line then
    ({ st with counter := counter, telegram := tg, stopper := true }, ReaderAction.eofShutdown)
  else if !matchTelegramLine line then
    ({ st with counter := counter, telegram := [] }, ReaderAction.discarded)
  else
    ({ st with counter := counter, telegram := tg ++ [line], trigger := true }, ReaderAction.accepted)

/-! ### mqttclient.run connectivity backoff (mqtt.py lines 518-534) -/

/-- Non-negative fraction with positive denominator, used to model the Python
float arithmetic of the backoff loop exactly as rational arithmetic (0.1 and
1.2 are decimal constants; over the at most 58 multiplications involved,
binary64 rounding error is ~1e-14 relative while every comparison against 3600
has at least a 10% margin, so the rational model decides every comparison the
same way the float code does). -/
structure Frac where
  num : Nat
  den : Nat
  deriving DecidableEq, Repr

/-- Product of fractions (no normalisation: comparisons cross-multiply). -/
def Frac.mul (a b : Frac) : Frac := ⟨a.num * b.num, a.den * b.den⟩

/-- Sum of fractions. -/
def Frac.add (a b : Frac) : Frac := ⟨a.num * b.den + b.num * a.den, a.den * b.den⟩

/-- a < b as cross-multiplied comparison. -/
def Frac.ltB (a b : Frac) : Bool := a.num * b.den < b.num * a.den

/-- a ≤ b as cross-multiplied comparison. -/
def Frac.leB (a b : Frac) : Bool := a.num * b.den ≤ b.num * a.den

/-- Phase of the connectivity wait loop. -/
inductive WaitStatus where
  | waiting
  | connected
  | fatal
  deriving DecidableEq, Repr

/-- State of the backoff loop in mqttclient.run: current delay, total time
slept so far, number of sleeps performed, and the two stop events
(self.__mqtt_stopper / self.__worker_threads_stopper). -/
structure WaitState where
  delay : Frac
  total : Frac
  sleeps : Nat
  mqttStopper : Bool
  workerStopper : Bool
  status : WaitStatus
  deriving DecidableEq, Repr

/-- Loop entry (mqtt.py line 524): delay = 0.1, nothing slept, no stop events
set. -/
def waitInit : WaitState := ⟨⟨1, 10⟩, ⟨0, 1⟩, 0, false, false, WaitStatus.waiting⟩

/-- One iteration of the loop `while not self.__internet_on()` (mqtt.py lines
525-534): if the probe succeeds the loop exits (connect phase); otherwise
sleep the current delay, multiply the delay by 1.2, and if the new delay
exceeds 3600 set both stop events and return (fatal).  Once exited, the state
is absorbing. -/
def wait_step (probeOk : Bool) (s : WaitState) : WaitState :=
  match s.status with
  | WaitStatus.connected => s
  | WaitStatus.fatal => s
  | WaitStatus.waiting =>
    if probeOk then { s with status := WaitStatus.connected }
    else
      let total := s.total.add s.delay
      let delay := s.delay.mul ⟨6, 5⟩
      if Frac.ltB ⟨3600, 1⟩ delay then
        { s with total := total, delay := delay, sleeps := s.sleeps + 1,
                 mqttStopper := true, workerStopper := true, status := WaitStatus.fatal }
      else
        { s with total := total, delay := delay, sleeps := s.sleeps + 1 }

/-- The loop after k iterations, fed by the probe outcomes. -/
def wait_run (probe : Nat → Bool) : Nat → WaitState
  | 0 => waitInit
  | k+1 => wait_step (probe k) (wait_run probe k)

/-- A broker that never becomes reachable. -/
def probeNever : Nat → Bool := fun _ => false


/-! ### Dictionary lemmas -/

theorem jkeys_cons (p : String × JVal) (r : JDict) : jkeys (p :: r) = p.1 :: jkeys r := rfl

theorem jlookup_cons (k : String) (p : String × JVal) (r : JDict) :
    jlookup k (p :: r) = if p.1 = k then some p.2 else jlookup k r := rfl

theorem jset_cons (k : String) (v : JVal) (p : String × JVal) (r : JDict) :
    jset k v (p :: r) = if p.1 = k then (k, v) :: r else p :: jset k v r := rfl

theorem jremove_cons (k : String) (p : String × JVal) (r : JDict) :
    jremove k (p :: r) = if p.1 = k then r else p :: jremove k r := rfl

theorem jlookup_jset_self (k : String) (v : JVal) (d : JDict) :
    jlookup k (jset k v d) = some v := by
  induction d with
  | nil => simp [jset, jlookup]
  | cons p r ih =>
    by_cases h : p.1 = k
    · simp [jset_cons, jlookup_cons, h]
    · simp [jset_cons, jlookup_cons, h, ih]

theorem jlookup_jset_ne {k k' : String} (h : k' ≠ k) (v : JVal) (d : JDict) :
    jlookup k (jset k' v d) = jlookup k d := by
  induction d with
  | nil => simp [jset, jlookup, h]
  | cons p r ih =>
    by_cases hp : p.1 = k'
    · have hpk : p.1 ≠ k := fun hh => h (hp.symm.trans hh)
      simp [jset_cons, jlookup_cons, hp, hpk, h]
    · simp [jset_cons, jlookup_cons, hp, ih]

theorem jlookup_jremove_ne {k k' : String} (h : k' ≠ k) (d : JDict) :
    jlookup k (jremove k' d) = jlookup k d := by
  induction d with
  | nil => rfl
  | cons p r ih =>
    by_cases hp : p.1 = k'
    · have hpk : p.1 ≠ k := fun hh => h (hp.symm.trans hh)
      simp [jremove_cons, jlookup_cons, hp, hpk, h]
    · simp [jremove_cons, jlookup_cons, hp, ih]

theorem jlookup_eq_none_of_not_mem {k : String} {d : JDict} (h : k ∉ jkeys d) :
    jlookup k d = none := by
  induction d with
  | nil => rfl
  | cons p r ih =>
    rw [jkeys_cons, List.mem_cons] at h
    push_neg at h
    rw [jlookup_cons, if_neg (fun hh => h.1 hh.symm)]
    exact ih h.2

theorem jlookup_jremove_self {k : String} {d : JDict} (h : (jkeys d).Nodup) :
    jlookup k (jremove k d) = none := by
  induction d with
  | nil => rfl
  | cons p r ih =>
    rw [jkeys_cons, List.nodup_cons] at h
    by_cases hp : p.1 = k
    · rw [jremove_cons, if_pos hp]
      exact jlookup_eq_none_of_not_mem (hp ▸ h.1)
    · rw [jremove_cons, if_neg hp, jlookup_cons, if_neg hp]
      exact ih h.2

theorem jkeys_jset_mem {m k : String} {v : JVal} {d : JDict} :
    m ∈ jkeys (jset k v d) → m = k ∨ m ∈ jkeys d := by
  induction d with
  | nil =>
    intro h
    simp [jset, jkeys] at h
    exact Or.inl h
  | cons p r ih =>
    intro h
    by_cases hp : p.1 = k
    · rw [jset_cons, if_pos hp, jkeys_cons, List.mem_cons] at h
      rcases h with h | h
      · exact Or.inl h
      · exact Or.inr (by rw [jkeys_cons, List.mem_cons]; exact Or.inr h)
    · rw [jset_cons, if_neg hp, jkeys_cons, List.mem_cons] at h
      rcases h with h | h
      · exact Or.inr (by rw [jkeys_cons, List.mem_cons]; exact Or.inl h)
      · rcases ih h with h' | h'
        · exact Or.inl h'
        · exact Or.inr (by rw [jkeys_cons, List.mem_cons]; exact Or.inr h')

theorem jset_nodup {k : String} {v : JVal} {d : JDict} (h : (jkeys d).Nodup) :
    (jkeys (jset k v d)).Nodup := by
  induction d with
  | nil => simp [jset, jkeys]
  | cons p r ih =>
    rw [jkeys_cons, List.nodup_cons] at h
    by_cases hp : p.1 = k
    · rw [jset_cons, if_pos hp, jkeys_cons, List.nodup_cons]
      exact ⟨hp ▸ h.1, h.2⟩
    · rw [jset_cons, if_neg hp, jkeys_cons, List.nodup_cons]
      refine ⟨?_, ih h.2⟩
      intro hmem
      rcases jkeys_jset_mem hmem with h' | h'
      · exact hp h'
      · exact h.1 h'

theorem jkeys_jremove_sub {m k : String} {d : JDict} :
    m ∈ jkeys (jremove k d) → m ∈ jkeys d := by
  induction d with
  | nil => intro h; simp [jremove, jkeys] at h
  | cons p r ih =>
    intro h
    by_cases hp : p.1 = k
    · rw [jremove_cons, if_pos hp] at h
      rw [jkeys_cons, List.mem_cons]
      exact Or.inr h
    · rw [jremove_cons, if_neg hp, jkeys_cons, List.mem_cons] at h
      rw [jkeys_cons, List.mem_cons]
      rcases h with h | h
      · exact Or.inl h
      · exact Or.inr (ih h)

theorem jremove_nodup {k : String} {d : JDict} (h : (jkeys d).Nodup) :
    (jkeys (jremove k d)).Nodup := by
  induction d with
  | nil => simp [jremove, jkeys]
  | cons p r ih =>
    rw [jkeys_cons, List.nodup_cons] at h
    by_cases hp : p.1 = k
    · rw [jremove_cons, if_pos hp]
      exact h.2
    · rw [jremove_cons, if_neg hp, jkeys_cons, List.nodup_cons]
      exact ⟨fun hmem => h.1 (jkeys_jremove_sub hmem), ih h.2⟩

/-! ### Measurements dictionary lemmas -/

theorem mlookup_cons (k : Nat) (p : Nat × Int) (r : List (Nat × Int)) :
    mlookup k (p :: r) = if p.1 = k then some p.2 else mlookup k r := rfl

theorem mset_cons (k : Nat) (v : Int) (p : Nat × Int) (r : List (Nat × Int)) :
    mset k v (p :: r) = if p.1 = k then (k, v) :: r else p :: mset k v r := rfl

theorem mlookup_mset_self (k : Nat) (v : Int) (t : List (Nat × Int)) :
    mlookup k (mset k v t) = some v := by
  induction t with
  | nil => simp [mset, mlookup]
  | cons p r ih =>
    by_cases h : p.1 = k
    · simp [mset_cons, mlookup_cons, h]
    · simp [mset_cons, mlookup_cons, h, ih]

theorem mlookup_mset_ne {k k' : Nat} (h : k' ≠ k) (v : Int) (t : List (Nat × Int)) :
    mlookup k (mset k' v t) = mlookup k t := by
  induction t with
  | nil => simp [mset, mlookup, h]
  | cons p r ih =>
    by_cases hp : p.1 = k'
    · have hpk : p.1 ≠ k := fun hh => h (hp.symm.trans hh)
      simp [mset_cons, mlookup_cons, hp, hpk, h]
    · simp [mset_cons, mlookup_cons, hp, ih]

/-! ### updateChannels lemmas -/

theorem updateChannels_zero (i : Nat) (curs prevs : List Int) (tot : List (Nat × Int)) :
    updateChannels 0 i curs prevs tot = some (prevs, tot, []) := rfl

theorem updateChannels_cons (n i : Nat) (c p : Int) (curs prevs : List Int)
    (tot : List (Nat × Int)) :
    updateChannels (n+1) i (c :: curs) (p :: prevs) tot =
      match mlookup i tot with
      | none => none
      | some t =>
        match updateChannels n (i+1) curs prevs (mset i (t + if p ≤ c then c - p else 0) tot) with
        | none => none
        | some (ps, tot', ws) =>
          some ((if p ≤ c then p else c) :: ps, tot', if c < p then i :: ws else ws) := rfl

/-- Keys strictly below the loop's starting channel are untouched. -/
theorem updateChannels_frame :
    ∀ (n i : Nat) (curs prevs : List Int) (tot : List (Nat × Int)) ps tot' ws,
      updateChannels n i curs prevs tot = some (ps, tot', ws) →
      ∀ k, k < i → mlookup k tot' = mlookup k tot := by
  intro n
  induction n with
  | zero =>
    intro i curs prevs tot ps tot' ws h k _
    rw [updateChannels_zero] at h
    simp only [Option.some_inj, Prod.mk.injEq] at h
    rw [← h.2.1]
  | succ m ih =>
    intro i curs prevs tot ps tot' ws h k hk
    match curs, prevs with
    | [], _ => simp [updateChannels] at h
    | _ :: _, [] => simp [updateChannels] at h
    | c :: curs, p :: prevs =>
      rw [updateChannels_cons] at h
      split at h
      · simp at h
      · rename_i t hl
        split at h
        · simp at h
        · rename_i ps' tot'' ws' hu
          simp only [Option.some_inj, Prod.mk.injEq] at h
          have := ih (i+1) curs prevs _ ps' tot'' ws' hu k (by omega)
          rw [← h.2.1, this, mlookup_mset_ne (by omega)]

/-- The exact update at each channel in the loop's window: the new total is
the old total plus max 0 (cur - prev), i.e. cur - prev in normal operation and
0 on power-down. -/
theorem updateChannels_exact :
    ∀ (n i : Nat) (curs prevs : List Int) (tot : List (Nat × Int)) ps tot' ws,
      updateChannels n i curs prevs tot = some (ps, tot', ws) →
      ∀ j cur pv t, j < n → curs.get? j = some cur → prevs.get? j = some pv →
        mlookup (i + j) tot = some t →
        mlookup (i + j) tot' = some (t + max 0 (cur - pv)) := by
  intro n
  induction n with
  | zero => intro _ _ _ _ _ _ _ _ _ _ _ _ hj; omega
  | succ m ih =>
    intro i curs prevs tot ps tot' ws h j cur pv t _hj hcur hpv ht
    match curs, prevs with
    | [], _ => simp [updateChannels] at h
    | _ :: _, [] => simp [updateChannels] at h
    | c :: curs, p :: prevs =>
      rw [updateChannels_cons] at h
      split at h
      · simp at h
      · rename_i t0 hl
        split at h
        · simp at h
        · rename_i ps' tot'' ws' hu
          simp only [Option.some_inj, Prod.mk.injEq] at h
          cases j with
          | zero =>
            simp only [List.get?] at hcur hpv
            have hc : c = cur := by injection hcur
            have hp : p = pv := by injection hpv
            subst hc; subst hp
            rw [Nat.add_zero] at ht ⊢
            rw [hl] at ht
            have ht' : t0 = t := by injection ht
            subst ht'
            have hframe := updateChannels_frame m (i+1) curs prevs _ ps' tot'' ws' hu i
              (Nat.lt_succ_self i)
            rw [← h.2.1, hframe, mlookup_mset_self]
            congr 1
            by_cases hpc : p ≤ c
            · rw [if_pos hpc]; omega
            · rw [if_neg hpc]; omega
          | succ j' =>
            simp only [List.get?] at hcur hpv
            have := ih (i+1) curs prevs _ ps' tot'' ws' hu j' cur pv t (by omega) hcur hpv
              (by rw [mlookup_mset_ne (by omega)]
                  show mlookup (i + 1 + j') tot = some t
                  rw [show i + 1 + j' = i + (j' + 1) by omega]
                  exact ht)
            rw [← h.2.1]
            rw [show i + (j' + 1) = i + 1 + j' by omega]
            exact this

/-- A power-down channel (cur < prev) is recorded in the warning list. -/
theorem updateChannels_warn :
    ∀ (n i : Nat) (curs prevs : List Int) (tot : List (Nat × Int)) ps tot' ws,
      updateChannels n i curs prevs tot = some (ps, tot', ws) →
      ∀ j cur pv, j < n → curs.get? j = some cur → prevs.get? j = some pv →
        cur < pv → (i + j) ∈ ws := by
  intro n
  induction n with
  | zero => intro _ _ _ _ _ _ _ _ _ _ hj; omega
  | succ m ih =>
    intro i curs prevs tot ps tot' ws h j cur pv _hj hcur hpv hlt
    match curs, prevs with
    | [], _ => simp [updateChannels] at h
    | _ :: _, [] => simp [updateChannels] at h
    | c :: curs, p :: prevs =>
      rw [updateChannels_cons] at h
      split at h
      · simp at h
      · rename_i t0 hl
        split at h
        · simp at h
        · rename_i ps' tot'' ws' hu
          simp only [Option.some_inj, Prod.mk.injEq] at h
          cases j with
          | zero =>
            simp only [List.get?] at hcur hpv
            have hc : c = cur := by injection hcur
            have hp : p = pv := by injection hpv
            subst hc; subst hp
            rw [← h.2.2, if_pos hlt]
            exact List.mem_cons_self _ _
          | succ j' =>
            simp only [List.get?] at hcur hpv
            have hmem := ih (i+1) curs prevs _ ps' tot'' ws' hu j' cur pv (by omega) hcur hpv hlt
            rw [← h.2.2]
            rw [show i + (j' + 1) = i + 1 + j' by omega]
            by_cases hcp : c < p
            · rw [if_pos hcp]
              exact List.mem_cons_of_mem _ hmem
            · rw [if_neg hcp]
              exact hmem

/-- Pointwise comparison of optional totals: a present total may only grow and
may not disappear. -/
def oleB : Option Int → Option Int → Bool
  | none, _ => true
  | some _, none => false
  | some a, some b => a ≤ b

theorem oleB_refl (a : Option Int) : oleB a a = true := by
  cases a <;> simp [oleB]

theorem oleB_trans {a b c : Option Int} (h1 : oleB a b = true) (h2 : oleB b c = true) :
    oleB a c = true := by
  cases a with
  | none => simp [oleB]
  | some x =>
    cases b with
    | none => simp [oleB] at h1
    | some y =>
      cases c with
      | none => simp [oleB] at h2
      | some z =>
        simp [oleB] at h1 h2 ⊢
        omega

/-- Every total is pointwise non-decreasing across the loop. -/
theorem updateChannels_mono :
    ∀ (n i : Nat) (curs prevs : List Int) (tot : List (Nat × Int)) ps tot' ws,
      updateChannels n i curs prevs tot = some (ps, tot', ws) →
      ∀ k, oleB (mlookup k tot) (mlookup k tot') = true := by
  intro n
  induction n with
  | zero =>
    intro i curs prevs tot ps tot' ws h k
    rw [updateChannels_zero] at h
    simp only [Option.some_inj, Prod.mk.injEq] at h
    rw [← h.2.1]
    exact oleB_refl _
  | succ m ih =>
    intro i curs prevs tot ps tot' ws h k
    match curs, prevs with
    | [], _ => simp [updateChannels] at h
    | _ :: _, [] => simp [updateChannels] at h
    | c :: curs, p :: prevs =>
      rw [updateChannels_cons] at h
      split at h
      · simp at h
      · rename_i t0 hl
        split at h
        · simp at h
        · rename_i ps' tot'' ws' hu
          simp only [Option.some_inj, Prod.mk.injEq] at h
          have step : oleB (mlookup k tot)
              (mlookup k (mset i (t0 + if p ≤ c then c - p else 0) tot)) = true := by
            by_cases hk : i = k
            · subst hk
              rw [hl, mlookup_mset_self]
              simp only [oleB]
              by_cases hpc : p ≤ c
              · rw [if_pos hpc]; simp; omega
              · rw [if_neg hpc]; simp
            · rw [mlookup_mset_ne hk]
              exact oleB_refl _
          have rest := ih (i+1) curs prevs _ ps' tot'' ws' hu k
          rw [← h.2.1]
          exact oleB_trans step rest

/-! ### Inversion lemmas for the decode cycle -/

/-- Any successful decode cycle parsed a counter and an element, and leaves
both the current and the previous vector equal to [0] ++ [M1..M5] of the
element (for the previous vector this is the seeding of line 201, the
equality of the skip branch, or the copy of line 247). -/
theorem decode_inv_basic
    (cfg : Config) (ts : Int) (st : ParserState) (tg : List String) (r : CycleResult)
    (hdec : decode_telegrams cfg ts st tg = some r) :
    ∃ counter element rest j2 ms,
      tg = counter :: element :: rest ∧
      decode_telegram_element element (initialJson cfg ts counter) = some j2 ∧
      mvalues j2 = some ms ∧
      r.state.all_values = 0 :: ms ∧
      r.state.prev_all_values = 0 :: ms := by
  match tg with
  | [] => simp [decode_telegrams] at hdec
  | [counter] => simp [decode_telegrams] at hdec
  | counter :: element :: rest =>
    refine ⟨counter, element, rest, ?_⟩
    simp only [decode_telegrams] at hdec
    split at hdec
    · simp at hdec
    · rename_i j2 hj2
      split at hdec
      · simp at hdec
      · rename_i ms hms
        refine ⟨j2, ms, rfl, hj2, hms, ?_⟩
        by_cases hp : st.prev_all_values = []
        · rw [if_pos hp] at hdec
          simp only [eq_self_iff_true, if_true] at hdec
          rw [Option.some_inj] at hdec
          rw [← hdec]
          exact ⟨rfl, rfl⟩
        · rw [if_neg hp] at hdec
          split at hdec
          · rename_i hcond
            rw [Option.some_inj] at hdec
            rw [← hdec]
            exact ⟨rfl, hcond.symm⟩
          · split at hdec
            · simp at hdec
            · rename_i ps tot' ws hups
              split at hdec
              · simp at hdec
              · rename_i j3 hj3
                split at hdec
                · simp at hdec
                · rename_i j4 hj4
                  rw [Option.some_inj] at hdec
                  rw [← hdec]
                  exact ⟨rfl, rfl⟩

/-- Full decomposition of a decode cycle that published (the change-detected
branch): the telegram parse, the change condition, the delta loop, the totals
write-back, the renaming, and the exact shape of the cycle result. -/
theorem decode_change_inv
    (cfg : Config) (ts : Int) (st : ParserState) (tg : List String) (r : CycleResult)
    (hdec : decode_telegrams cfg ts st tg = some r)
    (hpub : r.published.isSome = true) :
    ∃ counter element rest j2 ms ps tot' ws j3 j4,
      tg = counter :: element :: rest ∧
      decode_telegram_element element (initialJson cfg ts counter) = some j2 ∧
      mvalues j2 = some ms ∧
      st.prev_all_values ≠ [] ∧
      0 :: ms ≠ st.prev_all_values ∧
      updateChannels 5 1 ms st.prev_all_values.tail st.measurements = some (ps, tot', ws) ∧
      writeTotals tot' j2 = some j3 ∧
      applyNames cfg.s0_definition j3 = some j4 ∧
      r = ⟨⟨0 :: ms, 0 :: ms, tot', ts, (write_measurements cfg true st.write_counter).1⟩,
           some (replaceDoubleSlash cfg.mqtt_topic_pfx, jsonDumps j4), some j4,
           (write_measurements cfg true st.write_counter).2.1, ws⟩ := by
  match tg with
  | [] => simp [decode_telegrams] at hdec
  | [counter] => simp [decode_telegrams] at hdec
  | counter :: element :: rest =>
    refine ⟨counter, element, rest, ?_⟩
    simp only [decode_telegrams] at hdec
    split at hdec
    · simp at hdec
    · rename_i j2 hj2
      split at hdec
      · simp at hdec
      · rename_i ms hms
        by_cases hp : st.prev_all_values = []
        · rw [if_pos hp] at hdec
          simp only [eq_self_iff_true, if_true] at hdec
          rw [Option.some_inj] at hdec
          rw [← hdec] at hpub
          simp at hpub
        · rw [if_neg hp] at hdec
          split at hdec
          · rw [Option.some_inj] at hdec
            rw [← hdec] at hpub
            simp at hpub
          · rename_i hcond
            split at hdec
            · simp at hdec
            · rename_i ps tot' ws hups
              split at hdec
              · simp at hdec
              · rename_i j3 hj3
                split at hdec
                · simp at hdec
                · rename_i j4 hj4
                  rw [Option.some_inj] at hdec
                  exact ⟨j2, ms, ps, tot', ws, j3, j4, rfl, hj2, hms, hp, hcond, hups,
                    hj3, hj4, hdec.symm⟩

/-- Every channel key in the loop's window was present in the totals store
(otherwise the KeyError would have aborted the loop). -/
theorem updateChannels_defined :
    ∀ (n i : Nat) (curs prevs : List Int) (tot : List (Nat × Int)) ps tot' ws,
      updateChannels n i curs prevs tot = some (ps, tot', ws) →
      ∀ j, j < n → ∃ t, mlookup (i + j) tot = some t := by
  intro n
  induction n with
  | zero => intro _ _ _ _ _ _ _ _ _ hj; omega
  | succ m ih =>
    intro i curs prevs tot ps tot' ws h j hj
    match curs, prevs with
    | [], _ => simp [updateChannels] at h
    | _ :: _, [] => simp [updateChannels] at h
    | c :: curs, p :: prevs =>
      rw [updateChannels_cons] at h
      split at h
      · simp at h
      · rename_i t0 hl
        split at h
        · simp at h
        · rename_i ps' tot'' ws' hu
          cases j with
          | zero => exact ⟨t0, by rw [Nat.add_zero]; exact hl⟩
          | succ j' =>
            obtain ⟨t, ht⟩ := ih (i+1) curs prevs _ ps' tot'' ws' hu j' (by omega)
            rw [mlookup_mset_ne (by omega)] at ht
            exact ⟨t, by rw [show i + (j' + 1) = i + 1 + j' by omega]; exact ht⟩

/-- One decode cycle never decreases any stored running total. -/
theorem decode_mono (cfg : Config) (ts : Int) (st : ParserState) (tg : List String)
    (r : CycleResult) (hdec : decode_telegrams cfg ts st tg = some r) :
    ∀ k, oleB (mlookup k st.measurements) (mlookup k r.state.measurements) = true := by
  match tg with
  | [] => simp [decode_telegrams] at hdec
  | [counter] => simp [decode_telegrams] at hdec
  | counter :: element :: rest =>
    simp only [decode_telegrams] at hdec
    split at hdec
    · simp at hdec
    · rename_i j2 hj2
      split at hdec
      · simp at hdec
      · rename_i ms hms
        by_cases hp : st.prev_all_values = []
        · rw [if_pos hp] at hdec
          simp only [eq_self_iff_true, if_true] at hdec
          rw [Option.some_inj] at hdec
          rw [← hdec]
          intro k
          exact oleB_refl _
        · rw [if_neg hp] at hdec
          split at hdec
          · rw [Option.some_inj] at hdec
            rw [← hdec]
            intro k
            exact oleB_refl _
          · split at hdec
            · simp at hdec
            · rename_i ps tot' ws hups
              split at hdec
              · simp at hdec
              · rename_i j3 hj3
                split at hdec
                · simp at hdec
                · rename_i j4 hj4
                  rw [Option.some_inj] at hdec
                  rw [← hdec]
                  intro k
                  exact updateChannels_mono 5 1 ms _ _ ps tot' ws hups k

/-- C1: For every sequence of decode cycles and every channel 1..5, the
channel's RunningTotal never decreases.  First conjunct: each accepted
(publishing) cycle updates the stored total of channel ch by exactly
max 0 (raw_current - raw_previous).  Second conjunct: across any sequence of
decode cycles, every stored total (in particular each of channels 1..5) is
non-decreasing and never disappears (oleB). -/
theorem C1_running_total_monotone :
    (∀ (cfg : Config) (ts : Int) (st : ParserState) (tg : List String) (r : CycleResult)
       (ch : Nat) (cur pv t : Int),
       decode_telegrams cfg ts st tg = some r →
       r.published.isSome = true →
       1 ≤ ch → ch ≤ 5 →
       r.state.all_values.get? ch = some cur →
       st.prev_all_values.get? ch = some pv →
       mlookup ch st.measurements = some t →
       mlookup ch r.state.measurements = some (t + max 0 (cur - pv)))
    ∧ (∀ (cfg : Config) (inputs : List (Int × List String)) (st st' : ParserState),
       runCycles cfg st inputs = some st' →
       ∀ k, oleB (mlookup k st.measurements) (mlookup k st'.measurements) = true) := by
  constructor
  · intro cfg ts st tg r ch cur pv t hdec hpub hch1 hch5 hcur hpv ht
    obtain ⟨counter, element, rest, j2, ms, ps, tot', ws, j3, j4, htg, hj2, hms, hprev, hchg,
      hups, hj3, hj4, hr⟩ := decode_change_inv cfg ts st tg r hdec hpub
    subst hr
    obtain ⟨j, rfl⟩ : ∃ j, ch = j + 1 := ⟨ch - 1, by omega⟩
    simp only [List.get?] at hcur
    match hsp : st.prev_all_values, hpv with
    | p0 :: ptail, hpv =>
      rw [hsp, List.tail_cons] at hups
      simp only [List.get?] at hpv
      have := updateChannels_exact 5 1 ms ptail st.measurements ps tot' ws hups j cur pv t
        (by omega) hcur hpv (by rw [show 1 + j = j + 1 by omega]; exact ht)
      rw [show 1 + j = j + 1 by omega] at this
      exact this
  · intro cfg inputs
    induction inputs with
    | nil =>
      intro st st' hrun k
      simp only [runCycles, Option.some_inj] at hrun
      rw [hrun]
      exact oleB_refl _
    | cons p rest ih =>
      intro st st' hrun k
      obtain ⟨ts, tg⟩ := p
      simp only [runCycles] at hrun
      split at hrun
      · simp at hrun
      · rename_i r hr
        exact oleB_trans (decode_mono cfg ts st tg r hr k) (ih r.state st' hrun k)

/-! ### Concrete demonstration data (the scenario of the specification:
telegram pair with mapping jacuzzi/water and zero starting totals) -/

/-- First telegram handed over by the reader (counter "1"). -/
def tgA : List String := ["1", "ID:8237:I:10:M1:0:0:M2:0:0:M3:0:0:M4:0:0:M5:0:0"]

/-- Second telegram: M1 total 5, M3 total 3. -/
def tgB : List String := ["2", "ID:8237:I:10:M1:0:5:M2:0:0:M3:0:3:M4:0:0:M5:0:0"]

/-- Second telegram variant with M1 dropping to 2 (device power-down). -/
def tgC : List String := ["3", "ID:8237:I:10:M1:0:2:M2:0:0:M3:0:3:M4:0:0:M5:0:0"]

/-- State after decoding tgA from the initial state (seeding cycle). -/
def stSeeded : ParserState :=
  ⟨[0, 0, 0, 0, 0, 0], [0, 0, 0, 0, 0, 0], [(1, 0), (2, 0), (3, 0), (4, 0), (5, 0)], 0, 0⟩

/-- State after decoding tgB from stSeeded. -/
def stAfterB : ParserState :=
  ⟨[0, 5, 0, 3, 0, 0], [0, 5, 0, 3, 0, 0], [(1, 5), (2, 0), (3, 3), (4, 0), (5, 0)], 110, 1⟩

/-- Full cycle result of decoding tgB at timestamp 110 from stSeeded: exactly
the published reading of the specification scenario. -/
def rB : CycleResult :=
  ⟨stAfterB,
   some ("s0pcm",
     "\x7b\"counter\":\"2\",\"database\":\"s0pcm\",\"jacuzzi\":5,\"serial\":\"8237\",\"timestamp\":110,\"water\":3\x7d"),
   some [("timestamp", JVal.num 110), ("counter", JVal.str "2"), ("database", JVal.str "s0pcm"),
         ("serial", JVal.str "8237"), ("jacuzzi", JVal.num 5), ("water", JVal.num 3)],
   false, []⟩

/-- Witness for C1 at the specification's concrete scenario: channel 1 is
updated by exactly max 0 (5 - 0), and the stored total of channel 1 does not
decrease across the two-cycle run. -/
theorem C1_running_total_monotone_witness :
    mlookup 1 rB.state.measurements = some (0 + max 0 (5 - 0)) ∧
    runCycles cfg0 initialParserState [(100, tgA), (110, tgB)] = some stAfterB ∧
    oleB (mlookup 1 initialParserState.measurements) (mlookup 1 stAfterB.measurements) = true :=
  ⟨C1_running_total_monotone.1 cfg0 110 stSeeded tgB rB 1 5 0 0 (by decide) (by decide)
     (by decide) (by decide) (by decide) (by decide) (by decide),
   by decide,
   C1_running_total_monotone.2 cfg0 [(100, tgA), (110, tgB)] initialParserState stAfterB
     (by decide) 1⟩

/-- C2: In a change-detected cycle where a channel's current raw value is
below the stored previous one (device power-down), that channel contributes a
delta of exactly 0 (its running total is unchanged by the cycle), the
power-down warning for that channel is logged, and the stored previous raw
value for the channel ends up at the new lower value, so the next cycle's
delta is computed against the lower baseline. -/
theorem C2_power_down_reset
    (cfg : Config) (ts : Int) (st : ParserState) (tg : List String) (r : CycleResult)
    (ch : Nat) (cur pv : Int)
    (hdec : decode_telegrams cfg ts st tg = some r)
    (hpub : r.published.isSome = true)
    (hch1 : 1 ≤ ch) (hch5 : ch ≤ 5)
    (hcur : r.state.all_values.get? ch = some cur)
    (hpv : st.prev_all_values.get? ch = some pv)
    (hlt : cur < pv) :
    mlookup ch r.state.measurements = mlookup ch st.measurements ∧
    r.state.prev_all_values.get? ch = some cur ∧
    ch ∈ r.warnings := by
  obtain ⟨counter, element, rest, j2, ms, ps, tot', ws, j3, j4, htg, hj2, hms, hprev, hchg,
    hups, hj3, hj4, hr⟩ := decode_change_inv cfg ts st tg r hdec hpub
  subst hr
  obtain ⟨j, rfl⟩ : ∃ j, ch = j + 1 := ⟨ch - 1, by omega⟩
  simp only [List.get?] at hcur
  match hsp : st.prev_all_values, hpv with
  | p0 :: ptail, hpv =>
    rw [hsp, List.tail_cons] at hups
    simp only [List.get?] at hpv
    obtain ⟨t, ht⟩ :=
      updateChannels_defined 5 1 ms ptail st.measurements ps tot' ws hups j (by omega)
    have hex := updateChannels_exact 5 1 ms ptail st.measurements ps tot' ws hups j cur pv t
      (by omega) hcur hpv ht
    have hwarn := updateChannels_warn 5 1 ms ptail st.measurements ps tot' ws hups j cur pv
      (by omega) hcur hpv hlt
    refine ⟨?_, ?_, ?_⟩
    · rw [show (1:Nat) + j = j + 1 by omega] at hex ht
      rw [hex, ht]
      congr 1
      omega
    · simp only [List.get?]
      exact hcur
    · rw [show (1:Nat) + j = j + 1 by omega] at hwarn
      exact hwarn

/-- Witness for C2 at the specification's power-down scenario: feeding a
telegram with M1 dropping from 5 to 2 leaves jacuzzi's total at 5, logs the
warning for channel 1, and moves the stored previous raw value to 2. -/
theorem C2_power_down_reset_witness :
    mlookup 1 (⟨[0, 2, 0, 3, 0, 0], [0, 2, 0, 3, 0, 0],
        [(1, 5), (2, 0), (3, 3), (4, 0), (5, 0)], 120, 2⟩ : ParserState).measurements =
      mlookup 1 stAfterB.measurements ∧
    ([0, 2, 0, 3, 0, 0] : List Int).get? 1 = some 2 ∧
    1 ∈ [1] :=
  C2_power_down_reset cfg0 120 stAfterB tgC
    ⟨⟨[0, 2, 0, 3, 0, 0], [0, 2, 0, 3, 0, 0], [(1, 5), (2, 0), (3, 3), (4, 0), (5, 0)], 120, 2⟩,
     some ("s0pcm",
       "\x7b\"counter\":\"3\",\"database\":\"s0pcm\",\"jacuzzi\":5,\"serial\":\"8237\",\"timestamp\":120,\"water\":3\x7d"),
     some [("timestamp", JVal.num 120), ("counter", JVal.str "3"), ("database", JVal.str "s0pcm"),
           ("serial", JVal.str "8237"), ("jacuzzi", JVal.num 5), ("water", JVal.num 3)],
     false, [1]⟩
    1 2 5 (by decide) (by decide) (by decide) (by decide) (by decide) (by decide) (by decide)

/-! ### Lemmas for the idempotence of change detection -/

/-- The channel-triple loop only threads the dict through jset updates that
are determined by the element fields: running it over two different base
dicts succeeds together, and every key is either set by the loop (same value
in both results) or falls through to the respective base. -/
theorem decodeChannels_base_invariance :
    ∀ (n : Nat) (rest : List String) (b j : JDict),
      decodeChannels n rest b = some j →
      ∀ b' : JDict, ∃ j', decodeChannels n rest b' = some j' ∧
        ∀ k, jlookup k j' = jlookup k j ∨
             (jlookup k j' = jlookup k b' ∧ jlookup k j = jlookup k b) := by
  intro n
  induction n with
  | zero =>
    intro rest b j h b'
    simp only [decodeChannels, Option.some_inj] at h
    exact ⟨b', rfl, fun k => Or.inr ⟨rfl, by rw [h]⟩⟩
  | succ m ih =>
    intro rest b j h b'
    match rest with
    | [] => simp [decodeChannels] at h
    | [_] => simp [decodeChannels] at h
    | [_, _] => simp [decodeChannels] at h
    | channel :: d :: pulse :: rest' =>
      simp only [decodeChannels] at h ⊢
      split at h
      · simp at h
      · rename_i p hp
        obtain ⟨j', hj', hk⟩ := ih rest' (jset channel (JVal.num p) b) j h
          (jset channel (JVal.num p) b')
        refine ⟨j', hj', fun k => ?_⟩
        rcases hk k with hk | ⟨h1, h2⟩
        · exact Or.inl hk
        · by_cases hkc : channel = k
          · subst hkc
            rw [jlookup_jset_self] at h1 h2
            exact Or.inl (h1.trans h2.symm)
          · rw [jlookup_jset_ne hkc] at h1 h2
            exact Or.inr ⟨h1, h2⟩

/-- Unpacking mvalues: what each "Mi" lookup must have returned. -/
theorem mvalues_inv {j : JDict} {ms : List Int} (h : mvalues j = some ms) :
    ∃ a b c d e, jlookup "M1" j = some (JVal.num a) ∧ jlookup "M2" j = some (JVal.num b) ∧
      jlookup "M3" j = some (JVal.num c) ∧ jlookup "M4" j = some (JVal.num d) ∧
      jlookup "M5" j = some (JVal.num e) ∧ ms = [a, b, c, d, e] := by
  unfold mvalues at h
  split at h
  · rename_i a b c d e h1 h2 h3 h4 h5
    rw [Option.some_inj] at h
    exact ⟨a, b, c, d, e, h1, h2, h3, h4, h5, h.symm⟩
  · simp at h

/-- No "Mi" key can be found in the dict before the channel loop runs: the
base only holds serial / timestamp / counter / database. -/
theorem jlookup_base_none (cfg : Config) (ts : Int) (counter serial : String) (k : String)
    (h1 : k ≠ "serial") (h2 : k ≠ "database") (h3 : k ≠ "counter") (h4 : k ≠ "timestamp") :
    jlookup k (jset "serial" (JVal.str serial) (initialJson cfg ts counter)) = none := by
  rw [jlookup_jset_ne (Ne.symm h1)]
  unfold initialJson
  cases cfg.influxdb with
  | none =>
    simp only []
    rw [jlookup_jset_ne (Ne.symm h3), jlookup_jset_ne (Ne.symm h4)]
    rfl
  | some db =>
    simp only []
    rw [jlookup_jset_ne (Ne.symm h2), jlookup_jset_ne (Ne.symm h3),
      jlookup_jset_ne (Ne.symm h4)]
    rfl

/-- C3 (amended): after any successful decode cycle on a telegram, feeding the
very same telegram again is a complete no-op: the second cycle publishes
nothing, performs no persistence write, logs no warning, and leaves the
decoder state exactly as the first cycle left it.  (Hence a telegram pair
produces at most one publish event; the unamended "exactly one" fails when the
first cycle itself does not publish, e.g. the seeding cycle — see the
counterexample.) -/
theorem C3_second_identical_telegram_is_noop
    (cfg : Config) (ts1 ts2 : Int) (st : ParserState) (tg : List String) (r1 : CycleResult)
    (hdec1 : decode_telegrams cfg ts1 st tg = some r1) :
    decode_telegrams cfg ts2 r1.state tg = some ⟨r1.state, none, none, false, []⟩ := by
  obtain ⟨counter, element, rest, j2, ms, htg, hj2, hms, hall, hprev⟩ :=
    decode_inv_basic cfg ts1 st tg r1 hdec1
  subst htg
  unfold decode_telegram_element at hj2
  split at hj2
  · rename_i idtag serial itag interval s0rest heq
    obtain ⟨a, b, c, d, e, hm1, hm2, hm3, hm4, hm5, hmsval⟩ := mvalues_inv hms
    obtain ⟨j2', hj2', hkk⟩ := decodeChannels_base_invariance 5 s0rest _ j2 hj2
      (jset "serial" (JVal.str serial) (initialJson cfg ts2 counter))
    have hlk : ∀ (k : String) (v : Int), k ≠ "serial" → k ≠ "database" → k ≠ "counter" →
        k ≠ "timestamp" → jlookup k j2 = some (JVal.num v) → jlookup k j2' = some (JVal.num v) := by
      intro k v hk1 hk2 hk3 hk4 hkv
      rcases hkk k with hk | ⟨_, hfall⟩
      · rw [hk, hkv]
      · rw [jlookup_base_none cfg ts1 counter serial k hk1 hk2 hk3 hk4] at hfall
        rw [hkv] at hfall
        simp at hfall
    have hms' : mvalues j2' = some ms := by
      unfold mvalues
      rw [hlk "M1" a (by decide) (by decide) (by decide) (by decide) hm1,
          hlk "M2" b (by decide) (by decide) (by decide) (by decide) hm2,
          hlk "M3" c (by decide) (by decide) (by decide) (by decide) hm3,
          hlk "M4" d (by decide) (by decide) (by decide) (by decide) hm4,
          hlk "M5" e (by decide) (by decide) (by decide) (by decide) hm5]
      rw [hmsval]
    obtain ⟨⟨av, pva, mea, dat, wc⟩, pub, jout, dw, wrn⟩ := r1
    dsimp only at hall hprev ⊢
    subst hall
    subst hprev
    simp only [decode_telegrams]
    rw [show decode_telegram_element element (initialJson cfg ts2 counter) = some j2' by
      unfold decode_telegram_element
      rw [heq]
      exact hj2']
    dsimp only
    rw [hms']
    dsimp only
    rw [if_neg (List.cons_ne_nil _ _)]
    simp only [eq_self_iff_true, if_true]
  · exact Option.noConfusion hj2

/-- C3 counterexample to the unamended claim: from the decoder's start state,
feeding the same telegram twice in a row produces zero publish events, not
exactly one — the first cycle only seeds the previous-cycle vector, and the
second is suppressed by change detection. -/
theorem C3_counterexample :
    ((decode_telegrams cfg0 100 initialParserState tgA).bind fun r1 =>
      (decode_telegrams cfg0 101 r1.state tgA).map fun r2 =>
        (if r1.published.isSome then 1 else 0) + (if r2.published.isSome then 1 else 0)) =
      some 0 ∧ (some 0 : Option Nat) ≠ some 1 :=
  ⟨by decide, by decide⟩

/-- Witness for C3 (amended) at a concrete input: repeating the all-zero
telegram after its first decode leaves the state untouched with no publish
and no disk write. -/
theorem C3_second_identical_telegram_is_noop_witness :
    decode_telegrams cfg0 101 stSeeded tgA = some ⟨stSeeded, none, none, false, []⟩ :=
  C3_second_identical_telegram_is_noop cfg0 100 101 initialParserState tgA
    ⟨stSeeded, none, none, false, []⟩ (by decide)

/-- C4 (code bug): the first conjunct shows the true half of the claim — when
the backing file is absent or unreadable (__read_measurements raises and
returns), the in-memory state keeps the all-zero defaults of __init__.  The
remaining conjuncts show the false half: loading a document that is missing
the channel keys (e.g. a manually edited measurement.yaml holding only
`date: 37`) does not behave as "initialize that channel's total to 0": the
seeding cycle still succeeds, but the first change-detected cycle aborts
(none = an uncaught exception), because `self.__measurements[i]["total"] +=
delta` (S0_parser.py line 223) raises KeyError on the missing dict key i and
the `except IndexError` on line 224 cannot catch a KeyError — so decode
cycles after such a load raise instead of completing. -/
theorem C4_missing_channel_key_raises :
    read_measurements initialParserState none = initialParserState ∧
    (decode_telegrams cfg0 100 (read_measurements initialParserState (some ([], 37))) tgA).isSome
      = true ∧
    ((decode_telegrams cfg0 100 (read_measurements initialParserState (some ([], 37))) tgA).bind
      fun r1 => decode_telegrams cfg0 110 r1.state tgB) = none :=
  ⟨by decide, by decide, by decide⟩

/-! ### Write throttling (C5) -/

/-- The write counter and the number of physical disk writes after n accepted
changes, starting from the fresh counter 0 (each accepted change invokes
__write_measurements(throttle=True), S0_parser.py line 246). -/
def throttleRun (cfg : Config) : Nat → Nat × Nat
  | 0 => (0, 0)
  | n+1 =>
    let p := throttleRun cfg n
    let w := write_measurements cfg true p.1
    (w.1, p.2 + if w.2.1 then 1 else 0)

/-- The per-change physical-write decisions over n accepted changes starting
from write counter wc. -/
def throttleTrace (cfg : Config) : Nat → Nat → List Bool
  | 0, _ => []
  | n+1, wc =>
    let w := write_measurements cfg true wc
    w.2.1 :: throttleTrace cfg n w.1

/-- A configuration differing from cfg0 in every single field. -/
def cfgAlt : Config where
  loglevel := "DEBUG"
  production := false
  simulatorfile := "other.raw"
  measurementfile := "other.yaml"
  s0_definition := ⟨none, some "a", none, some "b", some "c"⟩
  mqtt_broker := "10.0.0.2"
  mqtt_port := 8883
  mqtt_client_uniq := "alt"
  mqtt_qos := 2
  mqtt_username := "u2"
  mqtt_password := "p2"
  mqtt_rate := 0
  mqtt_topic_pfx := "alt"
  ser_port := "/dev/ttyUSB1"
  ser_baudrate := 115200
  influxdb := none
  ha_discovery := false
  ha_discovery_topic_pfx := "alt_ha"
  ha_deleteconfig := true
  ha_interval := 1

/-- C5 counterexample to the claim as stated: the claim calls the write
cadence "a configurable parameter (not a hardcoded constant)", but the
configuration surface of config.rename.py (the Config structure) contains no
write-throttle field at all: under two configurations that differ in every
field, 25 accepted changes produce the identical physical-write pattern, with
writes exactly at the 10th and 20th change — the cadence is the literal 10 of
S0_parser.py line 96. -/
theorem C5_counterexample :
    cfg0 ≠ cfgAlt ∧
    throttleTrace cfg0 25 0 = throttleTrace cfgAlt 25 0 ∧
    throttleTrace cfg0 25 0 =
      [false, false, false, false, false, false, false, false, false, true,
       false, false, false, false, false, false, false, false, false, true,
       false, false, false, false, false] :=
  ⟨by decide, by decide, by decide⟩

/-- C5 (amended): the persistence layer is invoked on each accepted change,
but the physical disk write happens only once every 10 accepted changes,
where 10 is a hardcoded constant independent of the configuration; in
addition the teardown call (throttle=False, S0_parser.py line 271) always
writes.  Conjuncts: (1) the teardown write is unconditional for every
configuration and counter value; (2) a throttled call writes exactly when the
incremented counter reaches 10; (3) over any n accepted changes from a fresh
counter, exactly n / 10 physical writes happen (and the counter is n % 10),
for every configuration. -/
theorem C5_write_throttle_hardcoded_ten :
    (∀ (cfg : Config) (wc : Nat), (write_measurements cfg false wc).2.1 = true) ∧
    (∀ (cfg : Config) (wc : Nat), wc < 10 →
      ((write_measurements cfg true wc).2.1 = true ↔ wc + 1 = 10)) ∧
    (∀ (cfg : Config) (n : Nat), throttleRun cfg n = (n % 10, n / 10)) := by
  refine ⟨fun cfg wc => rfl, ?_, ?_⟩
  · intro cfg wc _
    unfold write_measurements
    by_cases h : wc + 1 < 10
    · simp [h]
      omega
    · simp [h]
      omega
  · intro cfg n
    induction n with
    | zero => rfl
    | succ m ih =>
      unfold throttleRun
      rw [ih]
      unfold write_measurements
      by_cases h : m % 10 + 1 < 10
      · simp [h]
        constructor
        · omega
        · omega
      · simp [h]
        constructor
        · omega
        · omega

/-- Witness for C5 (amended) at concrete inputs: a teardown write with a
mid-range counter, the throttled write firing exactly at counter 9 -> 10, and
the 25-change run producing 2 physical writes with counter 5. -/
theorem C5_write_throttle_hardcoded_ten_witness :
    (write_measurements cfg0 false 4).2.1 = true ∧
    ((write_measurements cfg0 true 9).2.1 = true ↔ 9 + 1 = 10) ∧
    throttleRun cfg0 25 = (25 % 10, 25 / 10) :=
  ⟨C5_write_throttle_hardcoded_ten.1 cfg0 4,
   C5_write_throttle_hardcoded_ten.2.1 cfg0 9 (by decide),
   C5_write_throttle_hardcoded_ten.2.2 cfg0 25⟩

/-! ### Reader lemmas (C7, C8) -/

/-- Consuming a literal succeeds exactly on lists beginning with it. -/
theorem litChars_inv : ∀ (cs l r : List Char), litChars cs l = some r → l = cs ++ r := by
  intro cs
  induction cs with
  | nil =>
    intro l r h
    simp only [litChars, Option.some_inj] at h
    rw [h, List.nil_append]
  | cons c cs ih =>
    intro l r h
    match l with
    | [] => simp [litChars] at h
    | d :: l' =>
      simp only [litChars] at h
      by_cases hd : d = c
      · rw [if_pos hd] at h
        subst hd
        rw [List.cons_append, ih l' r h]
      · rw [if_neg hd] at h
        exact absurd h (by simp)

/-- A line matching the telegram pattern starts with "ID:", so it can never
start with "EOF". -/
theorem match_line_not_eof {line : String} (h : matchTelegramLine line = true) :
    startsWithEOF line = false := by
  unfold matchTelegramLine at h
  cases hlit : litChars ['I', 'D', ':'] line.data with
  | none => rw [hlit] at h; simp at h
  | some r =>
    have hdata := litChars_inv ['I', 'D', ':'] line.data r hlit
    unfold startsWithEOF
    rw [hdata]
    rfl

/-- C7 (amended): every input line that fails the structural pattern — and,
in simulation mode, does not start with 'EOF' (such lines take the shutdown
path of C8 instead) — is handled non-fatally: the reader clears the
partially-built telegram (discarding the appended counter), logs a warning,
does not set the trigger (no telegram is handed to the parser, hence no
publish can result) and does not set the stopper (no crash/shutdown); a
subsequent valid telegram line is then accepted normally: trigger set and the
buffer holds exactly the fresh counter and the line. -/
theorem C7_malformed_line_discarded :
    ∀ (production : Bool) (st : ReaderState) (line vline : String),
      matchTelegramLine line = false →
      (production = true ∨ startsWithEOF line = false) →
      matchTelegramLine vline = true →
      (read_serial_step production st line).2 = ReaderAction.discarded ∧
      (read_serial_step production st line).1.telegram = [] ∧
      (read_serial_step production st line).1.stopper = st.stopper ∧
      (read_serial_step production st line).1.trigger = st.trigger ∧
      (read_serial_step production ((read_serial_step production st line).1) vline).2 =
        ReaderAction.accepted ∧
      (read_serial_step production ((read_serial_step production st line).1) vline).1.trigger =
        true ∧
      (read_serial_step production ((read_serial_step production st line).1) vline).1.telegram =
        [natToString (st.counter + 1 + 1), vline] := by
  intro production st line vline hm hpe hv
  have hnv : startsWithEOF vline = false := match_line_not_eof hv
  have heofLine : (!production && startsWithEOF line) = false := by
    rcases hpe with h | h
    · rw [h]
      rfl
    · rw [h]
      simp
  have heofV : (!production && startsWithEOF vline) = false := by
    rw [hnv]
    simp
  simp [read_serial_step, heofLine, heofV, hm, hv]

/-- Witness for C7 (amended): the malformed line GARBAGE between two valid
telegrams in simulation mode — discarded with the buffer cleared, no stop, no
trigger; the following valid telegram is accepted with counter 2. -/
theorem C7_malformed_line_discarded_witness :
    (read_serial_step false initialReaderState "GARBAGE").2 = ReaderAction.discarded ∧
    (read_serial_step false initialReaderState "GARBAGE").1.telegram = [] ∧
    (read_serial_step false initialReaderState "GARBAGE").1.stopper =
      initialReaderState.stopper ∧
    (read_serial_step false initialReaderState "GARBAGE").1.trigger =
      initialReaderState.trigger ∧
    (read_serial_step false ((read_serial_step false initialReaderState "GARBAGE").1)
        "ID:8237:I:10:M1:0:0:M2:0:0:M3:0:0:M4:0:0:M5:0:0").2 = ReaderAction.accepted ∧
    (read_serial_step false ((read_serial_step false initialReaderState "GARBAGE").1)
        "ID:8237:I:10:M1:0:0:M2:0:0:M3:0:0:M4:0:0:M5:0:0").1.trigger = true ∧
    (read_serial_step false ((read_serial_step false initialReaderState "GARBAGE").1)
        "ID:8237:I:10:M1:0:0:M2:0:0:M3:0:0:M4:0:0:M5:0:0").1.telegram =
      [natToString (initialReaderState.counter + 1 + 1),
       "ID:8237:I:10:M1:0:0:M2:0:0:M3:0:0:M4:0:0:M5:0:0"] :=
  C7_malformed_line_discarded false initialReaderState "GARBAGE"
    "ID:8237:I:10:M1:0:0:M2:0:0:M3:0:0:M4:0:0:M5:0:0" (by decide) (Or.inr (by decide))
    (by decide)

/-- C7 counterexample to the claim as stated: in simulation mode the line
"EOF" does not match the structural pattern, yet the reader does not discard
it and continue — it takes the shutdown path, setting the stopper, so no
subsequent telegram is processed. -/
theorem C7_counterexample :
    matchTelegramLine "EOF" = false ∧
    (read_serial_step false initialReaderState "EOF").2 = ReaderAction.eofShutdown ∧
    (read_serial_step false initialReaderState "EOF").1.stopper = true :=
  ⟨by decide, by decide, by decide⟩

/-- C8 (amended): in simulation mode the reader signals global shutdown
exactly when the line STARTS WITH "EOF" (Python line.startswith('EOF'),
S0_serial.py line 170) — not only when it is literally equal to "EOF"; in
production mode the shutdown path is never taken and the stopper is left
unchanged. -/
theorem C8_eof_shutdown_on_eof_prefixed_lines :
    ∀ (production : Bool) (st : ReaderState) (line : String),
      ((read_serial_step production st line).2 = ReaderAction.eofShutdown ↔
        (production = false ∧ startsWithEOF line = true)) ∧
      (read_serial_step production st line).1.stopper =
        (st.stopper || (!production && startsWithEOF line)) := by
  intro production st line
  cases production <;> cases hsw : startsWithEOF line <;>
    by_cases hm : matchTelegramLine line <;>
      simp [read_serial_step, hsw, hm]

/-- C8 counterexample to the claim as stated: the line "EOFPLUS" is not
literally equal to "EOF", yet in simulation mode it triggers the shutdown
path (stopper set, reading stops). -/
theorem C8_counterexample :
    (read_serial_step false initialReaderState "EOFPLUS").2 = ReaderAction.eofShutdown ∧
    (read_serial_step false initialReaderState "EOFPLUS").1.stopper = true ∧
    "EOFPLUS" ≠ "EOF" :=
  ⟨by decide, by decide, by decide⟩

/-! ### Backoff loop lemmas (C9) -/

/-- Invariant of the connectivity wait loop: the delay is exactly
0.1 * 1.2^sleeps (as the unreduced fraction 6^sleeps / (10 * 5^sleeps));
while the loop is still waiting the delay never exceeds 3600 s and no stop
event is set; once fatal, both stop events are set. -/
theorem wait_invariant (probe : Nat → Bool) (k : Nat) :
    (wait_run probe k).delay =
      ⟨6 ^ (wait_run probe k).sleeps, 10 * 5 ^ (wait_run probe k).sleeps⟩ ∧
    ((wait_run probe k).status = WaitStatus.waiting →
      Frac.leB (wait_run probe k).delay ⟨3600, 1⟩ = true ∧
      (wait_run probe k).mqttStopper = false ∧ (wait_run probe k).workerStopper = false) ∧
    ((wait_run probe k).status = WaitStatus.fatal →
      (wait_run probe k).mqttStopper = true ∧ (wait_run probe k).workerStopper = true) := by
  induction k with
  | zero =>
    refine ⟨rfl, fun _ => ⟨?_, rfl, rfl⟩, fun h => ?_⟩
    · show Frac.leB waitInit.delay ⟨3600, 1⟩ = true
      decide
    · exact absurd (show WaitStatus.waiting = WaitStatus.fatal from h) (by decide)
  | succ m ih =>
    obtain ⟨ihf, ihw, ihfat⟩ := ih
    have hrun : wait_run probe (m+1) = wait_step (probe m) (wait_run probe m) := rfl
    cases hst : (wait_run probe m).status with
    | connected =>
      have hid : wait_run probe (m+1) = wait_run probe m := by
        rw [hrun]
        unfold wait_step
        rw [hst]
      rw [hid]
      exact ⟨ihf, ihw, ihfat⟩
    | fatal =>
      have hid : wait_run probe (m+1) = wait_run probe m := by
        rw [hrun]
        unfold wait_step
        rw [hst]
      rw [hid]
      exact ⟨ihf, ihw, ihfat⟩
    | waiting =>
      obtain ⟨hle, hs1, hs2⟩ := ihw hst
      rw [hrun]
      unfold wait_step
      rw [hst]
      cases hp : probe m with
      | true =>
        simp only [if_true]
        refine ⟨ihf, fun h => absurd h (by simp), fun h => absurd h (by simp)⟩
      | false =>
        simp only [Bool.false_eq_true, if_false]
        have hmulf : (wait_run probe m).delay.mul ⟨6, 5⟩ =
            ⟨6 ^ ((wait_run probe m).sleeps + 1), 10 * 5 ^ ((wait_run probe m).sleeps + 1)⟩ := by
          rw [ihf]
          unfold Frac.mul
          simp only [Frac.mk.injEq]
          constructor
          · rw [pow_succ]
          · rw [pow_succ]
            ring
        cases hfb : Frac.ltB ⟨3600, 1⟩ ((wait_run probe m).delay.mul ⟨6, 5⟩) with
        | true =>
          rw [if_pos rfl]
          exact ⟨hmulf, fun h => absurd h (by simp), fun _ => ⟨rfl, rfl⟩⟩
        | false =>
          simp only [hfb, Bool.false_eq_true, if_false]
          refine ⟨hmulf, fun _ => ⟨?_, hs1, hs2⟩, fun h => absurd h (by simp [hst])⟩
          unfold Frac.ltB at hfb
          unfold Frac.leB
          rw [hmulf] at hfb ⊢
          simp only [decide_eq_false_iff_not, not_lt] at hfb
          simp only [decide_eq_true_eq]
          omega

/-- C9 (amended): while there is no connectivity the task waits an increasing
delay, 0.1 s multiplied by 1.2 on each retry (the fraction 6^s / (10·5^s)
after s sleeps); every delay actually slept is at most 3600 s (the effective
per-retry ceiling); the fatal condition is triggered by the PER-RETRY delay
exceeding 3600 s after multiplication — when it fires, both stop signals are
set and the loop state is absorbing (the task returns).  With a broker that
never becomes reachable this happens on the 58th retry, by which point the
total elapsed waiting exceeds 18000 s (5 hours), not one hour. -/
theorem C9_backoff_fatal_policy :
    (∀ (probe : Nat → Bool) (k : Nat),
      (wait_run probe k).delay =
        ⟨6 ^ (wait_run probe k).sleeps, 10 * 5 ^ (wait_run probe k).sleeps⟩) ∧
    (∀ (probe : Nat → Bool) (k : Nat), (wait_run probe k).status = WaitStatus.waiting →
      Frac.leB (wait_run probe k).delay ⟨3600, 1⟩ = true) ∧
    (∀ (probe : Nat → Bool) (k : Nat), (wait_run probe k).status = WaitStatus.fatal →
      (wait_run probe k).mqttStopper = true ∧ (wait_run probe k).workerStopper = true) ∧
    (∀ (b : Bool) (s : WaitState), s.status = WaitStatus.fatal → wait_step b s = s) ∧
    ((wait_run probeNever 57).status = WaitStatus.waiting ∧
     (wait_run probeNever 58).status = WaitStatus.fatal ∧
     (wait_run probeNever 58).sleeps = 58 ∧
     Frac.ltB ⟨18000, 1⟩ (wait_run probeNever 58).total = true) := by
  refine ⟨fun probe k => (wait_invariant probe k).1,
          fun probe k h => ((wait_invariant probe k).2.1 h).1,
          fun probe k h => (wait_invariant probe k).2.2 h,
          fun b s h => ?_,
          by decide, by decide, by decide, by decide⟩
  unfold wait_step
  rw [h]

/-- Witness for C9 (amended) at concrete inputs: after 10 fruitless probes
the loop is still waiting with delay within the ceiling; at the 58th retry it
is fatal with both stop signals set, and the fatal state is absorbing. -/
theorem C9_backoff_fatal_policy_witness :
    Frac.leB (wait_run probeNever 10).delay ⟨3600, 1⟩ = true ∧
    ((wait_run probeNever 58).mqttStopper = true ∧
     (wait_run probeNever 58).workerStopper = true) ∧
    wait_step true (wait_run probeNever 58) = wait_run probeNever 58 :=
  ⟨C9_backoff_fatal_policy.2.1 probeNever 10 (by decide),
   C9_backoff_fatal_policy.2.2.1 probeNever 58 (by decide),
   C9_backoff_fatal_policy.2.2.2.1 true (wait_run probeNever 58) (by decide)⟩

/-- C9 counterexample to the claim as stated: with a broker that never
becomes reachable, the total elapsed waiting already exceeds 3600 s (one
hour, the claimed "large ceiling on the order of an hour") after 49 sleeps,
yet the loop is NOT treated as fatal there — it keeps retrying with no stop
signal set; the fatal exit only occurs once the per-retry delay passes
3600 s, by which time more than 18000 s (5 hours) have elapsed. -/
theorem C9_counterexample :
    Frac.ltB ⟨3600, 1⟩ (wait_run probeNever 49).total = true ∧
    (wait_run probeNever 49).status = WaitStatus.waiting ∧
    (wait_run probeNever 49).mqttStopper = false ∧
    (wait_run probeNever 49).workerStopper = false ∧
    (wait_run probeNever 58).status = WaitStatus.fatal ∧
    Frac.ltB ⟨18000, 1⟩ (wait_run probeNever 58).total = true :=
  ⟨by decide, by decide, by decide, by decide, by decide, by decide⟩

/-! ### Key-order lemmas (sortedness of the payload) -/

theorem keyLe_cons_iff (x y : Char) (as bs : List Char) :
    keyLe (x :: as) (y :: bs) = true ↔
      (x.toNat < y.toNat ∨ (x.toNat = y.toNat ∧ keyLe as bs = true)) := by
  simp only [keyLe]
  by_cases h1 : x.toNat < y.toNat
  · simp [h1]
  · by_cases h2 : y.toNat < x.toNat
    · simp [h1, h2]
      omega
    · simp [h1, h2]
      omega

theorem keyLe_total : ∀ (a b : List Char), keyLe a b = true ∨ keyLe b a = true := by
  intro a
  induction a with
  | nil => intro b; exact Or.inl rfl
  | cons c as ih =>
    intro b
    match b with
    | [] => exact Or.inr rfl
    | d :: bs =>
      rcases Nat.lt_trichotomy c.toNat d.toNat with h | h | h
      · exact Or.inl ((keyLe_cons_iff c d as bs).mpr (Or.inl h))
      · rcases ih bs with h' | h'
        · exact Or.inl ((keyLe_cons_iff c d as bs).mpr (Or.inr ⟨h, h'⟩))
        · exact Or.inr ((keyLe_cons_iff d c bs as).mpr (Or.inr ⟨h.symm, h'⟩))
      · exact Or.inr ((keyLe_cons_iff d c bs as).mpr (Or.inl h))

theorem keyLe_trans : ∀ (a b c : List Char),
    keyLe a b = true → keyLe b c = true → keyLe a c = true := by
  intro a
  induction a with
  | nil => intro b c _ _; rfl
  | cons x as ih =>
    intro b c hab hbc
    match b with
    | [] => simp [keyLe] at hab
    | y :: bs =>
      match c with
      | [] => simp [keyLe] at hbc
      | z :: cs =>
        rw [keyLe_cons_iff] at hab hbc ⊢
        rcases hab with hab | ⟨hab1, hab2⟩
        · rcases hbc with hbc | ⟨hbc1, _⟩
          · exact Or.inl (by omega)
          · exact Or.inl (by omega)
        · rcases hbc with hbc | ⟨hbc1, hbc2⟩
          · exact Or.inl (by omega)
          · exact Or.inr ⟨by omega, ih bs cs hab2 hbc2⟩

instance : IsTotal (String × JVal) keyRel := ⟨fun p q => keyLe_total p.1.data q.1.data⟩

instance : IsTrans (String × JVal) keyRel :=
  ⟨fun p q r => keyLe_trans p.1.data q.1.data r.1.data⟩

/-- The entry list serialised by jsonDumps is sorted by the code-point key
order (json.dumps sort_keys=True). -/
theorem sortByKey_sorted (d : JDict) : List.Sorted keyRel (sortByKey d) :=
  List.sorted_insertionSort keyRel d

/-- The entries of the sorted dict are exactly the dict's entries. -/
theorem sortByKey_perm (d : JDict) : List.Perm (sortByKey d) d :=
  List.perm_insertionSort keyRel d

/-! ### Compactness: jsonDumps emits no whitespace -/

/-- No space character occurs in the string. -/
def strNoSpace (s : String) : Bool := s.data.all (fun c => !(c = ' '))

/-- No space character occurs in the value's rendering-relevant data. -/
def jvalNoSpace : JVal → Bool
  | JVal.num _ => true
  | JVal.str s => strNoSpace s

/-- No space character occurs in any key or string value of the dict. -/
def jdictNoSpace (d : JDict) : Bool := d.all (fun p => strNoSpace p.1 && jvalNoSpace p.2)

theorem strApp_data (s t : String) : (s ++ t).data = s.data ++ t.data := rfl

theorem strNoSpace_append (s t : String) :
    strNoSpace (s ++ t) = (strNoSpace s && strNoSpace t) := by
  unfold strNoSpace
  rw [strApp_data, List.all_append]

theorem digitChar_ne_space (n : Nat) : (!(digitChar n = ' ')) = true := by
  unfold digitChar
  split <;> decide

theorem natToStringAux_no_space :
    ∀ (fuel n : Nat) (acc : List Char), acc.all (fun c => !(c = ' ')) = true →
      (natToStringAux fuel n acc).all (fun c => !(c = ' ')) = true := by
  intro fuel
  induction fuel with
  | zero => intro n acc h; exact h
  | succ m ih =>
    intro n acc h
    unfold natToStringAux
    have hd : (digitChar (n % 10) :: acc).all (fun c => !(c = ' ')) = true := by
      rw [List.all_cons, digitChar_ne_space, h]
      rfl
    by_cases hn : n < 10
    · rw [if_pos hn]
      exact hd
    · rw [if_neg hn]
      exact ih (n / 10) _ hd

theorem natToString_no_space (n : Nat) : strNoSpace (natToString n) = true :=
  natToStringAux_no_space (n+1) n [] rfl

theorem intToString_no_space (n : Int) : strNoSpace (intToString n) = true := by
  cases n with
  | ofNat m => exact natToString_no_space m
  | negSucc m =>
    show ((('-' :: (natToString (m+1)).data)).all (fun c => !(c = ' '))) = true
    rw [List.all_cons]
    rw [show (!('-' = ' ')) = true by decide]
    rw [show ((natToString (m+1)).data.all (fun c => !(c = ' '))) = strNoSpace (natToString (m+1)) from rfl]
    rw [natToString_no_space]
    rfl

theorem renderJVal_no_space (v : JVal) (h : jvalNoSpace v = true) :
    strNoSpace (renderJVal v) = true := by
  cases v with
  | num n => exact intToString_no_space n
  | str s =>
    show strNoSpace ("\"" ++ s ++ "\"") = true
    rw [strNoSpace_append, strNoSpace_append]
    have hq : strNoSpace "\"" = true := by decide
    have h' : strNoSpace s = true := h
    rw [hq, h']
    rfl

theorem joinComma_no_space :
    ∀ (l : List String), (∀ s ∈ l, strNoSpace s = true) → strNoSpace (joinComma l) = true := by
  intro l
  induction l with
  | nil => intro _; decide
  | cons s r ih =>
    intro h
    match r with
    | [] => exact h s (List.mem_singleton_self s)
    | t :: r' =>
      show strNoSpace (s ++ "," ++ joinComma (t :: r')) = true
      rw [strNoSpace_append, strNoSpace_append]
      rw [h s (List.mem_cons_self _ _), show strNoSpace "," = true by decide,
        ih (fun u hu => h u (List.mem_cons_of_mem _ hu))]
      rfl

/-- Compactness of the serialisation: if no key or string value of the dict
contains a space, the rendered JSON message contains no space at all — the
only separators emitted are ',' and ':' (json.dumps separators=(',',':')). -/
theorem jsonDumps_no_space (d : JDict) (h : jdictNoSpace d = true) :
    strNoSpace (jsonDumps d) = true := by
  unfold jsonDumps
  rw [strNoSpace_append, strNoSpace_append]
  rw [show strNoSpace "\x7b" = true by decide, show strNoSpace "\x7d" = true by decide]
  rw [joinComma_no_space _ ?entries]
  · rfl
  case entries =>
    intro s hs
    rw [List.mem_map] at hs
    obtain ⟨p, hp, rfl⟩ := hs
    have hpd : p ∈ d := (sortByKey_perm d).mem_iff.mp hp
    have hprop := List.all_eq_true.mp h p hpd
    rw [Bool.and_eq_true] at hprop
    rw [strNoSpace_append, strNoSpace_append, strNoSpace_append]
    rw [show strNoSpace "\"" = true by decide]
    have hcolon : strNoSpace "\":" = true := by decide
    rw [hcolon, hprop.1, renderJVal_no_space p.2 hprop.2]
    rfl

/-! ### Sanity of the configured friendly names (C6, C10) -/

/-- A friendly name that cannot collide with the fixed payload keys "timestamp",
"counter", "database", "serial" or with the ephemeral channel keys "M1".."M5". -/
def goodKeyB (n : String) : Bool :=
  !(n = "timestamp") && !(n = "counter") && !(n = "database") && !(n = "serial") &&
  !(n = "M1") && !(n = "M2") && !(n = "M3") && !(n = "M4") && !(n = "M5")

/-- The optional name, when present, is a good key. -/
def okOpt : Option String → Bool
  | none => true
  | some n => goodKeyB n

/-- Two optional names, when both present, differ. -/
def neOpt : Option String → Option String → Bool
  | some a, some b => !(a = b)
  | _, _ => true

/-- Sanity of S0_DEFINITION: every configured name avoids the reserved keys
and the configured names are pairwise distinct.  (This is the implicit
contract of the name mapping; the shipped configuration satisfies it.) -/
def namesOkB (d : S0Definition) : Bool :=
  okOpt d.m1 && (okOpt d.m2 && (okOpt d.m3 && (okOpt d.m4 && (okOpt d.m5 &&
  (neOpt d.m1 d.m2 && (neOpt d.m1 d.m3 && (neOpt d.m1 d.m4 && (neOpt d.m1 d.m5 &&
  (neOpt d.m2 d.m3 && (neOpt d.m2 d.m4 && (neOpt d.m2 d.m5 &&
  (neOpt d.m3 d.m4 && (neOpt d.m3 d.m5 && neOpt d.m4 d.m5)))))))))))))

theorem okOpt_spec {o : Option String} {n : String} (h : okOpt o = true) (hn : o = some n) :
    n ≠ "timestamp" ∧ n ≠ "counter" ∧ n ≠ "database" ∧ n ≠ "serial" ∧
    n ≠ "M1" ∧ n ≠ "M2" ∧ n ≠ "M3" ∧ n ≠ "M4" ∧ n ≠ "M5" := by
  subst hn
  unfold okOpt goodKeyB at h
  simp only [Bool.and_eq_true, Bool.not_eq_true', decide_eq_false_iff_not] at h
  exact ⟨h.1.1.1.1.1.1.1.1, h.1.1.1.1.1.1.1.2, h.1.1.1.1.1.1.2, h.1.1.1.1.1.2,
    h.1.1.1.1.2, h.1.1.1.2, h.1.1.2, h.1.2, h.2⟩

theorem neOpt_spec {o1 o2 : Option String} {a b : String} (h : neOpt o1 o2 = true)
    (h1 : o1 = some a) (h2 : o2 = some b) : a ≠ b := by
  subst h1; subst h2
  unfold neOpt at h
  simpa using h

/-! ### applyName lemmas (the renaming loop) -/

theorem jpop_inv {k : String} {j : JDict} {v : JVal} {j' : JDict}
    (h : jpop k j = some (v, j')) : jlookup k j = some v ∧ j' = jremove k j := by
  unfold jpop at h
  split at h
  · exact absurd h (by simp)
  · rename_i v' hl
    rw [Option.some_inj, Prod.mk.injEq] at h
    exact ⟨h.1 ▸ hl, h.2.symm⟩

theorem applyName_some (name? : Option String) (mkey : String) (j j' : JDict)
    (h : applyName name? mkey j = some j') :
    ∃ v, jlookup mkey j = some v ∧
      ((∃ name, name? = some name ∧ j' = jset name v (jremove mkey j)) ∨
       (name? = none ∧ j' = jremove mkey j)) := by
  unfold applyName at h
  split at h
  · exact absurd h (by simp)
  · rename_i v j'' hpop
    obtain ⟨hl, hrem⟩ := jpop_inv hpop
    cases name? with
    | some name =>
      simp only [Option.some_inj] at h
      exact ⟨v, hl, Or.inl ⟨name, rfl, by rw [← h, hrem]⟩⟩
    | none =>
      simp only [Option.some_inj] at h
      exact ⟨v, hl, Or.inr ⟨rfl, by rw [← h, hrem]⟩⟩

/-- A key different from the popped key and from the inserted name is
untouched by one renaming step. -/
theorem applyName_lookup_ne {name? : Option String} {mkey : String} {j j' : JDict} {k : String}
    (h : applyName name? mkey j = some j')
    (hk1 : mkey ≠ k) (hk2 : ∀ n, name? = some n → n ≠ k) :
    jlookup k j' = jlookup k j := by
  obtain ⟨v, _, hj'⟩ := applyName_some name? mkey j j' h
  rcases hj' with ⟨name, hnm, hj'⟩ | ⟨_, hj'⟩
  · rw [hj', jlookup_jset_ne (hk2 name hnm), jlookup_jremove_ne hk1]
  · rw [hj', jlookup_jremove_ne hk1]

/-- After its renaming step, the popped "Mi" key is gone (the inserted name
differs from it). -/
theorem applyName_lookup_self_none {name? : Option String} {mkey : String} {j j' : JDict}
    (h : applyName name? mkey j = some j')
    (hnd : (jkeys j).Nodup) (hn : ∀ n, name? = some n → n ≠ mkey) :
    jlookup mkey j' = none := by
  obtain ⟨v, _, hj'⟩ := applyName_some name? mkey j j' h
  rcases hj' with ⟨name, hnm, hj'⟩ | ⟨_, hj'⟩
  · rw [hj', jlookup_jset_ne (hn name hnm), jlookup_jremove_self hnd]
  · rw [hj', jlookup_jremove_self hnd]

/-- The renaming step transfers the popped total to the friendly name. -/
theorem applyName_lookup_name {name mkey : String} {j j' : JDict} {v : JVal}
    (h : applyName (some name) mkey j = some j') (hv : jlookup mkey j = some v) :
    jlookup name j' = some v := by
  obtain ⟨v', hv', hj'⟩ := applyName_some (some name) mkey j j' h
  rw [hv, Option.some_inj] at hv'
  rcases hj' with ⟨name', hnm, hj'⟩ | ⟨hnone, _⟩
  · rw [Option.some_inj] at hnm
    rw [hj', ← hnm, hv', jlookup_jset_self]
  · exact absurd hnone (by simp)

/-- Renaming preserves key uniqueness. -/
theorem applyName_nodup {name? : Option String} {mkey : String} {j j' : JDict}
    (h : applyName name? mkey j = some j') (hnd : (jkeys j).Nodup) :
    (jkeys j').Nodup := by
  obtain ⟨v, _, hj'⟩ := applyName_some name? mkey j j' h
  rcases hj' with ⟨name, _, hj'⟩ | ⟨_, hj'⟩
  · rw [hj']
    exact jset_nodup (jremove_nodup hnd)
  · rw [hj']
    exact jremove_nodup hnd

/-- Decomposition of the full renaming loop into its five steps. -/
theorem applyNames_steps {d : S0Definition} {j j4 : JDict}
    (h : applyNames d j = some j4) :
    ∃ k1 k2 k3 k4,
      applyName d.m1 "M1" j = some k1 ∧
      applyName d.m2 "M2" k1 = some k2 ∧
      applyName d.m3 "M3" k2 = some k3 ∧
      applyName d.m4 "M4" k3 = some k4 ∧
      applyName d.m5 "M5" k4 = some j4 := by
  unfold applyNames at h
  split at h
  · exact absurd h (by simp)
  · rename_i k1 h1
    split at h
    · exact absurd h (by simp)
    · rename_i k2 h2
      split at h
      · exact absurd h (by simp)
      · rename_i k3 h3
        split at h
        · exact absurd h (by simp)
        · rename_i k4 h4
          exact ⟨k1, k2, k3, k4, h1, h2, h3, h4, h⟩

/-! ### Shape of the decoded element and of the totals write-back -/

theorem decode_element_shape {element : String} {base j2 : JDict}
    {f0 serial f2 f3 d1 t1 d2 t2 d3 t3 d4 t4 d5 t5 : String} {extra : List String}
    (hsplit : splitColonStr element =
      f0 :: serial :: f2 :: f3 :: "M1" :: d1 :: t1 :: "M2" :: d2 :: t2 ::
      "M3" :: d3 :: t3 :: "M4" :: d4 :: t4 :: "M5" :: d5 :: t5 :: extra)
    (h : decode_telegram_element element base = some j2) :
    ∃ v1 v2 v3 v4 v5 : Int,
      parseInt? t1 = some v1 ∧ parseInt? t2 = some v2 ∧ parseInt? t3 = some v3 ∧
      parseInt? t4 = some v4 ∧ parseInt? t5 = some v5 ∧
      j2 = jset "M5" (JVal.num v5) (jset "M4" (JVal.num v4) (jset "M3" (JVal.num v3)
        (jset "M2" (JVal.num v2) (jset "M1" (JVal.num v1)
          (jset "serial" (JVal.str serial) base))))) := by
  unfold decode_telegram_element at h
  rw [hsplit] at h
  rw [show (5:Nat) = 4+1 from rfl] at h
  simp only [decodeChannels] at h
  split at h
  · exact absurd h (by simp)
  · rename_i v1 hv1
    split at h
    · exact absurd h (by simp)
    · rename_i v2 hv2
      split at h
      · exact absurd h (by simp)
      · rename_i v3 hv3
        split at h
        · exact absurd h (by simp)
        · rename_i v4 hv4
          split at h
          · exact absurd h (by simp)
          · rename_i v5 hv5
            rw [Option.some_inj] at h
            exact ⟨v1, v2, v3, v4, v5, hv1, hv2, hv3, hv4, hv5, h.symm⟩

theorem writeTotals_inv {tot : List (Nat × Int)} {j j3 : JDict}
    (h : writeTotals tot j = some j3) :
    ∃ t1 t2 t3 t4 t5 : Int,
      mlookup 1 tot = some t1 ∧ mlookup 2 tot = some t2 ∧ mlookup 3 tot = some t3 ∧
      mlookup 4 tot = some t4 ∧ mlookup 5 tot = some t5 ∧
      j3 = jset "M5" (JVal.num t5) (jset "M4" (JVal.num t4) (jset "M3" (JVal.num t3)
        (jset "M2" (JVal.num t2) (jset "M1" (JVal.num t1) j)))) := by
  unfold writeTotals at h
  split at h
  · rename_i t1 t2 t3 t4 t5 h1 h2 h3 h4 h5
    rw [Option.some_inj] at h
    exact ⟨t1, t2, t3, t4, t5, h1, h2, h3, h4, h5, h.symm⟩
  · exact absurd h (by simp)

/-! ### Lookups in the initial json dict -/

theorem initialJson_nodup (cfg : Config) (ts : Int) (counter : String) :
    (jkeys (initialJson cfg ts counter)).Nodup := by
  unfold initialJson
  cases cfg.influxdb with
  | none =>
    show (jkeys [("timestamp", JVal.num ts), ("counter", JVal.str counter)]).Nodup
    show (["timestamp", "counter"] : List String).Nodup
    decide
  | some db =>
    show (jkeys [("timestamp", JVal.num ts), ("counter", JVal.str counter),
      ("database", JVal.str db)]).Nodup
    show (["timestamp", "counter", "database"] : List String).Nodup
    decide

theorem jlookup_initialJson_timestamp (cfg : Config) (ts : Int) (counter : String) :
    jlookup "timestamp" (initialJson cfg ts counter) = some (JVal.num ts) := by
  unfold initialJson
  cases cfg.influxdb with
  | none =>
    rw [jlookup_jset_ne (by decide), jlookup_jset_self]
  | some db =>
    rw [jlookup_jset_ne (by decide), jlookup_jset_ne (by decide), jlookup_jset_self]

theorem jlookup_initialJson_counter (cfg : Config) (ts : Int) (counter : String) :
    jlookup "counter" (initialJson cfg ts counter) = some (JVal.str counter) := by
  unfold initialJson
  cases cfg.influxdb with
  | none =>
    rw [jlookup_jset_self]
  | some db =>
    rw [jlookup_jset_ne (by decide), jlookup_jset_self]

theorem jlookup_initialJson_database (cfg : Config) (ts : Int) (counter : String) :
    jlookup "database" (initialJson cfg ts counter) = Option.map JVal.str cfg.influxdb := by
  unfold initialJson
  cases cfg.influxdb with
  | none =>
    rw [jlookup_jset_ne (by decide), jlookup_jset_ne (by decide)]
    rfl
  | some db =>
    rw [jlookup_jset_self]
    rfl

/-- Full characterisation of a published payload: the message is the compact
sorted serialisation of the observed dict, which holds the timestamp, the
counter string, the telegram's serial (as a string), the database tag exactly
when configured, each mapped channel's friendly name with that channel's new
running total, and no "M1".."M5" key.  Requires the telegram element to have
the structural shape the reader's pattern guarantees, and the configured
names to be sane (namesOkB). -/
theorem published_payload_shape
    (cfg : Config) (ts : Int) (st : ParserState)
    (counter element : String) (rest : List String) (r : CycleResult)
    (jd : JDict) (topic msg : String)
    (f0 serial f2 f3 d1 t1 d2 t2 d3 t3 d4 t4 d5 t5 : String) (extra : List String)
    (hdec : decode_telegrams cfg ts st (counter :: element :: rest) = some r)
    (hjson : r.jsonOut = some jd)
    (hpub : r.published = some (topic, msg))
    (hsplit : splitColonStr element =
      f0 :: serial :: f2 :: f3 :: "M1" :: d1 :: t1 :: "M2" :: d2 :: t2 ::
      "M3" :: d3 :: t3 :: "M4" :: d4 :: t4 :: "M5" :: d5 :: t5 :: extra)
    (hnames : namesOkB cfg.s0_definition = true) :
    msg = jsonDumps jd ∧
    jlookup "timestamp" jd = some (JVal.num ts) ∧
    jlookup "counter" jd = some (JVal.str counter) ∧
    jlookup "serial" jd = some (JVal.str serial) ∧
    jlookup "database" jd = Option.map JVal.str cfg.influxdb ∧
    (∀ name t, cfg.s0_definition.m1 = some name →
      mlookup 1 r.state.measurements = some t → jlookup name jd = some (JVal.num t)) ∧
    (∀ name t, cfg.s0_definition.m2 = some name →
      mlookup 2 r.state.measurements = some t → jlookup name jd = some (JVal.num t)) ∧
    (∀ name t, cfg.s0_definition.m3 = some name →
      mlookup 3 r.state.measurements = some t → jlookup name jd = some (JVal.num t)) ∧
    (∀ name t, cfg.s0_definition.m4 = some name →
      mlookup 4 r.state.measurements = some t → jlookup name jd = some (JVal.num t)) ∧
    (∀ name t, cfg.s0_definition.m5 = some name →
      mlookup 5 r.state.measurements = some t → jlookup name jd = some (JVal.num t)) ∧
    jlookup "M1" jd = none ∧ jlookup "M2" jd = none ∧ jlookup "M3" jd = none ∧
    jlookup "M4" jd = none ∧ jlookup "M5" jd = none := by
  have hpubsome : r.published.isSome = true := by rw [hpub]; rfl
  obtain ⟨counter', element', rest', j2, ms, ps, tot', ws, j3, j4, htg, hj2, hms, hprev, hchg,
    hups, hj3, hj4, hr⟩ := decode_change_inv cfg ts st _ r hdec hpubsome
  injection htg with hceq htg2
  injection htg2 with heeq hreq
  subst hceq
  subst heeq
  subst hr
  dsimp only at hjson hpub ⊢
  rw [Option.some_inj] at hjson
  subst hjson
  rw [Option.some_inj, Prod.mk.injEq] at hpub
  obtain ⟨v1, v2, v3, v4, v5, hv1, hv2, hv3, hv4, hv5, hj2eq⟩ := decode_element_shape hsplit hj2
  obtain ⟨t1', t2', t3', t4', t5', hw1, hw2, hw3, hw4, hw5, hj3eq⟩ := writeTotals_inv hj3
  obtain ⟨k1, k2, k3, k4, hA1, hA2, hA3, hA4, hA5⟩ := applyNames_steps hj4
  rw [namesOkB] at hnames
  simp only [Bool.and_eq_true] at hnames
  obtain ⟨ok1, ok2, ok3, ok4, ok5, ne12, ne13, ne14, ne15, ne23, ne24, ne25, ne34, ne35, ne45⟩ :=
    hnames
  have nd2 : (jkeys j2).Nodup := by
    rw [hj2eq]
    exact jset_nodup (jset_nodup (jset_nodup (jset_nodup (jset_nodup (jset_nodup
      (initialJson_nodup cfg ts counter))))))
  have nd3 : (jkeys j3).Nodup := by
    rw [hj3eq]
    exact jset_nodup (jset_nodup (jset_nodup (jset_nodup (jset_nodup nd2))))
  have ndk1 : (jkeys k1).Nodup := applyName_nodup hA1 nd3
  have ndk2 : (jkeys k2).Nodup := applyName_nodup hA2 ndk1
  have ndk3 : (jkeys k3).Nodup := applyName_nodup hA3 ndk2
  have ndk4 : (jkeys k4).Nodup := applyName_nodup hA4 ndk3
  have passNames : ∀ (k : String), "M1" ≠ k → "M2" ≠ k → "M3" ≠ k → "M4" ≠ k → "M5" ≠ k →
      (∀ n, cfg.s0_definition.m1 = some n → n ≠ k) →
      (∀ n, cfg.s0_definition.m2 = some n → n ≠ k) →
      (∀ n, cfg.s0_definition.m3 = some n → n ≠ k) →
      (∀ n, cfg.s0_definition.m4 = some n → n ≠ k) →
      (∀ n, cfg.s0_definition.m5 = some n → n ≠ k) →
      jlookup k j4 = jlookup k j3 := by
    intro k h1 h2 h3 h4 h5 n1 n2 n3 n4 n5
    rw [applyName_lookup_ne hA5 h5 n5, applyName_lookup_ne hA4 h4 n4,
      applyName_lookup_ne hA3 h3 n3, applyName_lookup_ne hA2 h2 n2,
      applyName_lookup_ne hA1 h1 n1]
  have passTotals : ∀ (k : String), "M1" ≠ k → "M2" ≠ k → "M3" ≠ k → "M4" ≠ k → "M5" ≠ k →
      jlookup k j3 = jlookup k j2 := by
    intro k h1 h2 h3 h4 h5
    rw [hj3eq, jlookup_jset_ne h5, jlookup_jset_ne h4, jlookup_jset_ne h3,
      jlookup_jset_ne h2, jlookup_jset_ne h1]
  have passElem : ∀ (k : String), "M1" ≠ k → "M2" ≠ k → "M3" ≠ k → "M4" ≠ k → "M5" ≠ k →
      "serial" ≠ k → jlookup k j2 = jlookup k (initialJson cfg ts counter) := by
    intro k h1 h2 h3 h4 h5 hs
    rw [hj2eq, jlookup_jset_ne h5, jlookup_jset_ne h4, jlookup_jset_ne h3,
      jlookup_jset_ne h2, jlookup_jset_ne h1, jlookup_jset_ne hs]
  refine ⟨hpub.2.symm, ?_, ?_, ?_, ?_, ?_, ?_, ?_, ?_, ?_, ?_, ?_, ?_, ?_, ?_⟩
  · rw [passNames "timestamp" (by decide) (by decide) (by decide) (by decide) (by decide)
        (fun n hn => (okOpt_spec ok1 hn).1) (fun n hn => (okOpt_spec ok2 hn).1)
        (fun n hn => (okOpt_spec ok3 hn).1) (fun n hn => (okOpt_spec ok4 hn).1)
        (fun n hn => (okOpt_spec ok5 hn).1),
      passTotals "timestamp" (by decide) (by decide) (by decide) (by decide) (by decide),
      passElem "timestamp" (by decide) (by decide) (by decide) (by decide) (by decide)
        (by decide),
      jlookup_initialJson_timestamp]
  · rw [passNames "counter" (by decide) (by decide) (by decide) (by decide) (by decide)
        (fun n hn => (okOpt_spec ok1 hn).2.1) (fun n hn => (okOpt_spec ok2 hn).2.1)
        (fun n hn => (okOpt_spec ok3 hn).2.1) (fun n hn => (okOpt_spec ok4 hn).2.1)
        (fun n hn => (okOpt_spec ok5 hn).2.1),
      passTotals "counter" (by decide) (by decide) (by decide) (by decide) (by decide),
      passElem "counter" (by decide) (by decide) (by decide) (by decide) (by decide)
        (by decide),
      jlookup_initialJson_counter]
  · rw [passNames "serial" (by decide) (by decide) (by decide) (by decide) (by decide)
        (fun n hn => (okOpt_spec ok1 hn).2.2.2.1) (fun n hn => (okOpt_spec ok2 hn).2.2.2.1)
        (fun n hn => (okOpt_spec ok3 hn).2.2.2.1) (fun n hn => (okOpt_spec ok4 hn).2.2.2.1)
        (fun n hn => (okOpt_spec ok5 hn).2.2.2.1),
      passTotals "serial" (by decide) (by decide) (by decide) (by decide) (by decide),
      hj2eq, jlookup_jset_ne (by decide), jlookup_jset_ne (by decide),
      jlookup_jset_ne (by decide), jlookup_jset_ne (by decide), jlookup_jset_ne (by decide),
      jlookup_jset_self]
  · rw [passNames "database" (by decide) (by decide) (by decide) (by decide) (by decide)
        (fun n hn => (okOpt_spec ok1 hn).2.2.1) (fun n hn => (okOpt_spec ok2 hn).2.2.1)
        (fun n hn => (okOpt_spec ok3 hn).2.2.1) (fun n hn => (okOpt_spec ok4 hn).2.2.1)
        (fun n hn => (okOpt_spec ok5 hn).2.2.1),
      passTotals "database" (by decide) (by decide) (by decide) (by decide) (by decide),
      passElem "database" (by decide) (by decide) (by decide) (by decide) (by decide)
        (by decide),
      jlookup_initialJson_database]
  · intro name t hn ht
    have hspec := okOpt_spec ok1 hn
    rw [hw1, Option.some_inj] at ht
    have hl3 : jlookup "M1" j3 = some (JVal.num t1') := by
      rw [hj3eq, jlookup_jset_ne (by decide), jlookup_jset_ne (by decide),
        jlookup_jset_ne (by decide), jlookup_jset_ne (by decide), jlookup_jset_self]
    rw [hn] at hA1
    have hk1l : jlookup name k1 = some (JVal.num t1') := applyName_lookup_name hA1 hl3
    rw [applyName_lookup_ne hA5 (Ne.symm hspec.2.2.2.2.2.2.2.2)
        (fun n5 hn5 => Ne.symm (neOpt_spec ne15 hn hn5)),
      applyName_lookup_ne hA4 (Ne.symm hspec.2.2.2.2.2.2.2.1)
        (fun n4 hn4 => Ne.symm (neOpt_spec ne14 hn hn4)),
      applyName_lookup_ne hA3 (Ne.symm hspec.2.2.2.2.2.2.1)
        (fun n3 hn3 => Ne.symm (neOpt_spec ne13 hn hn3)),
      applyName_lookup_ne hA2 (Ne.symm hspec.2.2.2.2.2.1)
        (fun n2 hn2 => Ne.symm (neOpt_spec ne12 hn hn2)),
      hk1l, ht]
  · intro name t hn ht
    have hspec := okOpt_spec ok2 hn
    rw [hw2, Option.some_inj] at ht
    have hl3 : jlookup "M2" j3 = some (JVal.num t2') := by
      rw [hj3eq, jlookup_jset_ne (by decide), jlookup_jset_ne (by decide),
        jlookup_jset_ne (by decide), jlookup_jset_self]
    have hk1l : jlookup "M2" k1 = some (JVal.num t2') := by
      rw [applyName_lookup_ne hA1 (by decide)
        (fun n1 hn1 => (okOpt_spec ok1 hn1).2.2.2.2.2.1), hl3]
    rw [hn] at hA2
    have hk2l : jlookup name k2 = some (JVal.num t2') := applyName_lookup_name hA2 hk1l
    rw [applyName_lookup_ne hA5 (Ne.symm hspec.2.2.2.2.2.2.2.2)
        (fun n5 hn5 => Ne.symm (neOpt_spec ne25 hn hn5)),
      applyName_lookup_ne hA4 (Ne.symm hspec.2.2.2.2.2.2.2.1)
        (fun n4 hn4 => Ne.symm (neOpt_spec ne24 hn hn4)),
      applyName_lookup_ne hA3 (Ne.symm hspec.2.2.2.2.2.2.1)
        (fun n3 hn3 => Ne.symm (neOpt_spec ne23 hn hn3)),
      hk2l, ht]
  · intro name t hn ht
    have hspec := okOpt_spec ok3 hn
    rw [hw3, Option.some_inj] at ht
    have hl3 : jlookup "M3" j3 = some (JVal.num t3') := by
      rw [hj3eq, jlookup_jset_ne (by decide), jlookup_jset_ne (by decide),
        jlookup_jset_self]
    have hk1l : jlookup "M3" k1 = some (JVal.num t3') := by
      rw [applyName_lookup_ne hA1 (by decide)
        (fun n1 hn1 => (okOpt_spec ok1 hn1).2.2.2.2.2.2.1), hl3]
    have hk2l : jlookup "M3" k2 = some (JVal.num t3') := by
      rw [applyName_lookup_ne hA2 (by decide)
        (fun n2 hn2 => (okOpt_spec ok2 hn2).2.2.2.2.2.2.1), hk1l]
    rw [hn] at hA3
    have hk3l : jlookup name k3 = some (JVal.num t3') := applyName_lookup_name hA3 hk2l
    rw [applyName_lookup_ne hA5 (Ne.symm hspec.2.2.2.2.2.2.2.2)
        (fun n5 hn5 => Ne.symm (neOpt_spec ne35 hn hn5)),
      applyName_lookup_ne hA4 (Ne.symm hspec.2.2.2.2.2.2.2.1)
        (fun n4 hn4 => Ne.symm (neOpt_spec ne34 hn hn4)),
      hk3l, ht]
  · intro name t hn ht
    have hspec := okOpt_spec ok4 hn
    rw [hw4, Option.some_inj] at ht
    have hl3 : jlookup "M4" j3 = some (JVal.num t4') := by
      rw [hj3eq, jlookup_jset_ne (by decide), jlookup_jset_self]
    have hk1l : jlookup "M4" k1 = some (JVal.num t4') := by
      rw [applyName_lookup_ne hA1 (by decide)
        (fun n1 hn1 => (okOpt_spec ok1 hn1).2.2.2.2.2.2.2.1), hl3]
    have hk2l : jlookup "M4" k2 = some (JVal.num t4') := by
      rw [applyName_lookup_ne hA2 (by decide)
        (fun n2 hn2 => (okOpt_spec ok2 hn2).2.2.2.2.2.2.2.1), hk1l]
    have hk3l : jlookup "M4" k3 = some (JVal.num t4') := by
      rw [applyName_lookup_ne hA3 (by decide)
        (fun n3 hn3 => (okOpt_spec ok3 hn3).2.2.2.2.2.2.2.1), hk2l]
    rw [hn] at hA4
    have hk4l : jlookup name k4 = some (JVal.num t4') := applyName_lookup_name hA4 hk3l
    rw [applyName_lookup_ne hA5 (Ne.symm hspec.2.2.2.2.2.2.2.2)
        (fun n5 hn5 => Ne.symm (neOpt_spec ne45 hn hn5)),
      hk4l, ht]
  · intro name t hn ht
    rw [hw5, Option.some_inj] at ht
    have hl3 : jlookup "M5" j3 = some (JVal.num t5') := by
      rw [hj3eq, jlookup_jset_self]
    have hk1l : jlookup "M5" k1 = some (JVal.num t5') := by
      rw [applyName_lookup_ne hA1 (by decide)
        (fun n1 hn1 => (okOpt_spec ok1 hn1).2.2.2.2.2.2.2.2), hl3]
    have hk2l : jlookup "M5" k2 = some (JVal.num t5') := by
      rw [applyName_lookup_ne hA2 (by decide)
        (fun n2 hn2 => (okOpt_spec ok2 hn2).2.2.2.2.2.2.2.2), hk1l]
    have hk3l : jlookup "M5" k3 = some (JVal.num t5') := by
      rw [applyName_lookup_ne hA3 (by decide)
        (fun n3 hn3 => (okOpt_spec ok3 hn3).2.2.2.2.2.2.2.2), hk2l]
    have hk4l : jlookup "M5" k4 = some (JVal.num t5') := by
      rw [applyName_lookup_ne hA4 (by decide)
        (fun n4 hn4 => (okOpt_spec ok4 hn4).2.2.2.2.2.2.2.2), hk3l]
    rw [hn] at hA5
    rw [applyName_lookup_name hA5 hk4l, ht]
  · rw [applyName_lookup_ne hA5 (by decide)
        (fun n5 hn5 => (okOpt_spec ok5 hn5).2.2.2.2.1),
      applyName_lookup_ne hA4 (by decide) (fun n4 hn4 => (okOpt_spec ok4 hn4).2.2.2.2.1),
      applyName_lookup_ne hA3 (by decide) (fun n3 hn3 => (okOpt_spec ok3 hn3).2.2.2.2.1),
      applyName_lookup_ne hA2 (by decide) (fun n2 hn2 => (okOpt_spec ok2 hn2).2.2.2.2.1),
      applyName_lookup_self_none hA1 nd3 (fun n1 hn1 => (okOpt_spec ok1 hn1).2.2.2.2.1)]
  · rw [applyName_lookup_ne hA5 (by decide)
        (fun n5 hn5 => (okOpt_spec ok5 hn5).2.2.2.2.2.1),
      applyName_lookup_ne hA4 (by decide) (fun n4 hn4 => (okOpt_spec ok4 hn4).2.2.2.2.2.1),
      applyName_lookup_ne hA3 (by decide) (fun n3 hn3 => (okOpt_spec ok3 hn3).2.2.2.2.2.1),
      applyName_lookup_self_none hA2 ndk1 (fun n2 hn2 => (okOpt_spec ok2 hn2).2.2.2.2.2.1)]
  · rw [applyName_lookup_ne hA5 (by decide)
        (fun n5 hn5 => (okOpt_spec ok5 hn5).2.2.2.2.2.2.1),
      applyName_lookup_ne hA4 (by decide)
        (fun n4 hn4 => (okOpt_spec ok4 hn4).2.2.2.2.2.2.1),
      applyName_lookup_self_none hA3 ndk2 (fun n3 hn3 => (okOpt_spec ok3 hn3).2.2.2.2.2.2.1)]
  · rw [applyName_lookup_ne hA5 (by decide)
        (fun n5 hn5 => (okOpt_spec ok5 hn5).2.2.2.2.2.2.2.1),
      applyName_lookup_self_none hA4 ndk3
        (fun n4 hn4 => (okOpt_spec ok4 hn4).2.2.2.2.2.2.2.1)]
  · rw [applyName_lookup_self_none hA5 ndk4
        (fun n5 hn5 => (okOpt_spec ok5 hn5).2.2.2.2.2.2.2.2)]

/-- C6: every publish event's payload is json.dumps of the observed dict with
deterministically sorted keys (sortByKey) and no whitespace (given the
entries themselves are whitespace-free, which holds for the digit serial and
sane configured names); the dict holds at minimum the timestamp and the
counter, plus one key per named mapped channel bound to that channel's new
running total, with unmapped channels' "Mi" keys entirely absent, and the
optional database tag exactly when INFLUXDB is configured. -/
theorem C6_payload_compact_sorted_shape
    (cfg : Config) (ts : Int) (st : ParserState)
    (counter element : String) (rest : List String) (r : CycleResult)
    (jd : JDict) (topic msg : String)
    (f0 serial f2 f3 d1 t1 d2 t2 d3 t3 d4 t4 d5 t5 : String) (extra : List String)
    (hdec : decode_telegrams cfg ts st (counter :: element :: rest) = some r)
    (hjson : r.jsonOut = some jd)
    (hpub : r.published = some (topic, msg))
    (hsplit : splitColonStr element =
      f0 :: serial :: f2 :: f3 :: "M1" :: d1 :: t1 :: "M2" :: d2 :: t2 ::
      "M3" :: d3 :: t3 :: "M4" :: d4 :: t4 :: "M5" :: d5 :: t5 :: extra)
    (hnames : namesOkB cfg.s0_definition = true) :
    msg = jsonDumps jd ∧
    List.Sorted keyRel (sortByKey jd) ∧
    (jdictNoSpace jd = true → strNoSpace msg = true) ∧
    jlookup "timestamp" jd = some (JVal.num ts) ∧
    jlookup "counter" jd = some (JVal.str counter) ∧
    jlookup "database" jd = Option.map JVal.str cfg.influxdb ∧
    (∀ name t, cfg.s0_definition.m1 = some name →
      mlookup 1 r.state.measurements = some t → jlookup name jd = some (JVal.num t)) ∧
    (∀ name t, cfg.s0_definition.m2 = some name →
      mlookup 2 r.state.measurements = some t → jlookup name jd = some (JVal.num t)) ∧
    (∀ name t, cfg.s0_definition.m3 = some name →
      mlookup 3 r.state.measurements = some t → jlookup name jd = some (JVal.num t)) ∧
    (∀ name t, cfg.s0_definition.m4 = some name →
      mlookup 4 r.state.measurements = some t → jlookup name jd = some (JVal.num t)) ∧
    (∀ name t, cfg.s0_definition.m5 = some name →
      mlookup 5 r.state.measurements = some t → jlookup name jd = some (JVal.num t)) ∧
    jlookup "M1" jd = none ∧ jlookup "M2" jd = none ∧ jlookup "M3" jd = none ∧
    jlookup "M4" jd = none ∧ jlookup "M5" jd = none := by
  obtain ⟨hmsg, hts, hcnt, _hser, hdb, h1, h2, h3, h4, h5, hM1, hM2, hM3, hM4, hM5⟩ :=
    published_payload_shape cfg ts st counter element rest r jd topic msg
      f0 serial f2 f3 d1 t1 d2 t2 d3 t3 d4 t4 d5 t5 extra hdec hjson hpub hsplit hnames
  refine ⟨hmsg, sortByKey_sorted jd, ?_, hts, hcnt, hdb, h1, h2, h3, h4, h5,
    hM1, hM2, hM3, hM4, hM5⟩
  intro hns
  rw [hmsg]
  exact jsonDumps_no_space jd hns

/-- The element string of the specification's second telegram. -/
def elemB : String := "ID:8237:I:10:M1:0:5:M2:0:0:M3:0:3:M4:0:0:M5:0:0"

/-- The dict serialised into the published payload for tgB. -/
def jdB : JDict :=
  [("timestamp", JVal.num 110), ("counter", JVal.str "2"), ("database", JVal.str "s0pcm"),
   ("serial", JVal.str "8237"), ("jacuzzi", JVal.num 5), ("water", JVal.num 3)]

/-- The published payload string for tgB. -/
def msgB : String :=
  "\x7b\"counter\":\"2\",\"database\":\"s0pcm\",\"jacuzzi\":5,\"serial\":\"8237\",\"timestamp\":110,\"water\":3\x7d"

/-- Witness for C6 at the specification scenario: the payload for tgB is the
compact sorted serialisation of its dict, space-free, with timestamp 110,
counter "2", the configured database tag, jacuzzi 5 and water 3, and no
"M1".."M5" key. -/
theorem C6_payload_compact_sorted_shape_witness :
    msgB = jsonDumps jdB ∧
    List.Sorted keyRel (sortByKey jdB) ∧
    strNoSpace msgB = true ∧
    jlookup "timestamp" jdB = some (JVal.num 110) ∧
    jlookup "counter" jdB = some (JVal.str "2") ∧
    jlookup "database" jdB = Option.map JVal.str cfg0.influxdb ∧
    jlookup "jacuzzi" jdB = some (JVal.num 5) ∧
    jlookup "water" jdB = some (JVal.num 3) ∧
    jlookup "M1" jdB = none ∧ jlookup "M2" jdB = none ∧ jlookup "M3" jdB = none ∧
    jlookup "M4" jdB = none ∧ jlookup "M5" jdB = none := by
  obtain ⟨hmsg, hsort, hnos, hts, hcnt, hdb, h1, _h2, h3, _h4, _h5, m1, m2, m3, m4, m5⟩ :=
    C6_payload_compact_sorted_shape cfg0 110 stSeeded "2" elemB [] rB jdB "s0pcm" msgB
      "ID" "8237" "I" "10" "0" "5" "0" "0" "0" "3" "0" "0" "0" "0" []
      (by decide) (by decide) (by decide) (by decide) (by decide)
  exact ⟨hmsg, hsort, hnos (by decide), hts, hcnt, hdb,
    h1 "jacuzzi" 5 (by decide) (by decide), h3 "water" 3 (by decide) (by decide),
    m1, m2, m3, m4, m5⟩

/-- C10: every published payload additionally contains a "serial" key holding
the telegram's device serial id rendered as a JSON string (str(s0array[0]),
S0_parser.py line 137) — the serial is the second ':'-separated field of the
element, and the key is present in every published reading (it survives the
totals write-back and the renaming loop for any sane name mapping). -/
theorem C10_serial_key_in_payload
    (cfg : Config) (ts : Int) (st : ParserState)
    (counter element : String) (rest : List String) (r : CycleResult)
    (jd : JDict) (topic msg : String)
    (f0 serial f2 f3 d1 t1 d2 t2 d3 t3 d4 t4 d5 t5 : String) (extra : List String)
    (hdec : decode_telegrams cfg ts st (counter :: element :: rest) = some r)
    (hjson : r.jsonOut = some jd)
    (hpub : r.published = some (topic, msg))
    (hsplit : splitColonStr element =
      f0 :: serial :: f2 :: f3 :: "M1" :: d1 :: t1 :: "M2" :: d2 :: t2 ::
      "M3" :: d3 :: t3 :: "M4" :: d4 :: t4 :: "M5" :: d5 :: t5 :: extra)
    (hnames : namesOkB cfg.s0_definition = true) :
    msg = jsonDumps jd ∧ jlookup "serial" jd = some (JVal.str serial) := by
  obtain ⟨hmsg, _hts, _hcnt, hser, _⟩ :=
    published_payload_shape cfg ts st counter element rest r jd topic msg
      f0 serial f2 f3 d1 t1 d2 t2 d3 t3 d4 t4 d5 t5 extra hdec hjson hpub hsplit hnames
  exact ⟨hmsg, hser⟩

/-- Witness for C10 at the specification scenario: the payload for tgB holds
the serial key with the string "8237". -/
theorem C10_serial_key_in_payload_witness :
    msgB = jsonDumps jdB ∧ jlookup "serial" jdB = some (JVal.str "8237") :=
  C10_serial_key_in_payload cfg0 110 stSeeded "2" elemB [] rB jdB "s0pcm" msgB
    "ID" "8237" "I" "10" "0" "5" "0" "0" "0" "3" "0" "0" "0" "0" []
    (by decide) (by decide) (by decide) (by decide) (by decide)
